import Mathlib

/-!
# k3s agent proxy (`pkg/agent/proxy/apiproxy.go`)

A shallow embedding of the agent's `proxy` type and of its operations
`NewSupervisorProxy`, `Update`, `SetHealthCheck`, `setSupervisorPort`,
`SetAPIServerPort`, `SetSupervisorDefault` and the accessors, followed by
theorems about them.

Go strings are byte sequences, so they are embedded as lists of bytes.  The Go
standard library functions the proxy calls (`net.SplitHostPort`,
`net.JoinHostPort`, `strconv.Itoa`, `net/url.Parse`, `(*URL).String`,
`(*URL).Hostname`, `(*URL).Port`) are transcribed from the Go standard
library (as of Go 1.24) as executable functions; loops over a string become
structural recursion over its bytes, an index result of `-1` becomes `none`,
and an error value is represented by its reason text.  The `loadbalancer`
package is not among the sources; it is represented by the contract the proxy
relies on.  A method with a pointer receiver becomes a function from the proxy
before the call to the proxy after it.
-/

namespace K3s

/-! ## Go strings -/

/-- A Go `string`: an immutable sequence of bytes. -/
abbrev GoString := List UInt8

/-- UTF-8 encoding of one character. -/
def utf8 (c : Char) : List UInt8 :=
  let n := c.toNat
  if n < 0x80 then [UInt8.ofNat n]
  else if n < 0x800 then [UInt8.ofNat (0xC0 + n / 0x40), UInt8.ofNat (0x80 + n % 0x40)]
  else if n < 0x10000 then
    [UInt8.ofNat (0xE0 + n / 0x1000), UInt8.ofNat (0x80 + n / 0x40 % 0x40),
     UInt8.ofNat (0x80 + n % 0x40)]
  else
    [UInt8.ofNat (0xF0 + n / 0x40000), UInt8.ofNat (0x80 + n / 0x1000 % 0x40),
     UInt8.ofNat (0x80 + n / 0x40 % 0x40), UInt8.ofNat (0x80 + n % 0x40)]

/-- A Go string literal: the UTF-8 bytes of the text. -/
def go (s : String) : GoString := s.data.flatMap utf8

/-- The byte of an ASCII character, as in a Go byte literal such as `':'`. -/
def byte (c : Char) : UInt8 := UInt8.ofNat c.toNat

/-- Go `bytealg.IndexByteString`: index of the first `c` in `s`, `none` for `-1`. -/
def indexByte : GoString → UInt8 → Option Nat
  | [], _ => none
  | x :: xs, c => if x = c then some 0 else (indexByte xs c).map (· + 1)

/-- Go `bytealg.LastIndexByteString`: index of the last `c` in `s`, `none` for `-1`. -/
def lastIndexByte : GoString → UInt8 → Option Nat
  | [], _ => none
  | x :: xs, c =>
    match lastIndexByte xs c with
    | some i => some (i + 1)
    | none => if x = c then some 0 else none

/-- A Go `error` value, represented by its reason text. -/
abbrev error := String

deriving instance DecidableEq for Except

/-! ## Package `net`: `SplitHostPort` and `JoinHostPort` -/

/-- Go `net.SplitHostPort`: splits `host:port`, `[host]:port` or
`[host%zone]:port` into host and port. -/
def SplitHostPort (hostport : GoString) : Except error (GoString × GoString) :=
  let missingPort := "missing port in address"
  let tooManyColons := "too many colons in address"
  -- The port starts after the last colon.
  match lastIndexByte hostport (byte ':') with
  | none => .error missingPort
  | some i =>
    let finish (host : GoString) (j k : Nat) : Except error (GoString × GoString) :=
      if (indexByte (hostport.drop j) (byte '[')).isSome then
        .error "unexpected '[' in address"
      else if (indexByte (hostport.drop k) (byte ']')).isSome then
        .error "unexpected ']' in address"
      else .ok (host, hostport.drop (i + 1))
    if hostport.head? = some (byte '[') then
      -- Expect the first ']' just before the last ':'.
      match indexByte hostport (byte ']') with
      | none => .error "missing ']' in address"
      | some end_ =>
        if end_ + 1 = hostport.length then
          -- There can't be a ':' behind the ']' now.
          .error missingPort
        else if end_ + 1 = i then
          -- The expected result.
          finish ((hostport.take end_).drop 1) 1 (end_ + 1)
        else if hostport.get? (end_ + 1) = some (byte ':') then
          -- Either ']' isn't followed by a colon, or it is
          -- followed by a colon that is not the last one.
          .error tooManyColons
        else .error missingPort
    else
      let host := hostport.take i
      if (indexByte host (byte ':')).isSome then .error tooManyColons
      else finish host 0 0

/-- Go `net.JoinHostPort`: `host:port`, or `[host]:port` when the host
contains a colon. -/
def JoinHostPort (host port : GoString) : GoString :=
  -- We assume that host is a literal IPv6 address if host has colons.
  if (indexByte host (byte ':')).isSome then
    go "[" ++ host ++ go "]:" ++ port
  else host ++ go ":" ++ port

/-! ## Package `strconv`: `Itoa` -/

/-- Decimal digits of a natural number, most significant first. -/
def decimal (n : Nat) : GoString := (Nat.toDigits 10 n).map byte

/-- Go `strconv.Itoa`: the decimal text of an `int`. -/
def Itoa (i : Int) : GoString :=
  match i with
  | .ofNat n => decimal n
  | .negSucc n => byte '-' :: decimal (n + 1)

/-- Two's complement wrap-around of a Go `int` (64 bits) result. -/
def wrapInt (x : Int) : Int := (x + 2 ^ 63) % 2 ^ 64 - 2 ^ 63

/-! ## Package `net/url`: `Parse`, `String`, `Hostname`, `Port` -/

/-- Go `strings.Index`: index of the first occurrence of `sub` in `s`. -/
def index : GoString → GoString → Option Nat
  | [], sub => if sub = [] then some 0 else none
  | x :: xs, sub =>
    if sub.isPrefixOf (x :: xs) then some 0 else (index xs sub).map (· + 1)

/-- Go `strings.Cut` with a one-byte separator: the text before and after the
first separator, and whether it was found. -/
def cut (s : GoString) (sep : UInt8) : GoString × GoString × Bool :=
  match indexByte s sep with
  | some i => (s.take i, s.drop (i + 1), true)
  | none => (s, [], false)

/-- The escaping modes of `net/url`. -/
inductive encoding where
  | encodePath
  | encodePathSegment
  | encodeHost
  | encodeZone
  | encodeUserPassword
  | encodeQueryComponent
  | encodeFragment
deriving DecidableEq, Repr

/-- Userinfo of a URL (`url.Userinfo`). -/
structure Userinfo where
  username : GoString := []
  password : GoString := []
  passwordSet : Bool := false
deriving DecidableEq, Repr

/-- A parsed URL (`url.URL`). -/
structure URL where
  Scheme : GoString := []
  Opaque : GoString := []
  User : Option Userinfo := none
  Host : GoString := []
  Path : GoString := []
  RawPath : GoString := []
  OmitHost : Bool := false
  ForceQuery : Bool := false
  RawQuery : GoString := []
  Fragment : GoString := []
  RawFragment : GoString := []
deriving DecidableEq, Repr

def isLetter (c : UInt8) : Bool :=
  (byte 'a' ≤ c && c ≤ byte 'z') || (byte 'A' ≤ c && c ≤ byte 'Z')

def isDigit (c : UInt8) : Bool := byte '0' ≤ c && c ≤ byte '9'

/-- Go `ishex`. -/
def ishex (c : UInt8) : Bool :=
  (byte '0' ≤ c && c ≤ byte '9') || (byte 'a' ≤ c && c ≤ byte 'f') ||
    (byte 'A' ≤ c && c ≤ byte 'F')

/-- Go `unhex`. -/
def unhex (c : UInt8) : UInt8 :=
  if byte '0' ≤ c && c ≤ byte '9' then c - byte '0'
  else if byte 'a' ≤ c && c ≤ byte 'f' then c - byte 'a' + 10
  else if byte 'A' ≤ c && c ≤ byte 'F' then c - byte 'A' + 10
  else 0

/-- Go `shouldEscape`: whether byte `c` must be percent-escaped in `mode`. -/
def shouldEscape (c : UInt8) (mode : encoding) : Bool :=
  -- §2.3 Unreserved characters (alphanum)
  if isLetter c || isDigit c then false
  else if (mode = .encodeHost ∨ mode = .encodeZone) ∧
      c ∈ go "!$&" ++ [byte '\''] ++ go "()*+,;=:[]<>" ++ [byte '"'] then false
  -- §2.3 Unreserved characters (mark)
  else if c ∈ go "-_.~" then false
  -- §2.2 Reserved characters (reserved)
  else if c ∈ go "$&+,/:;=?@" then
    match mode with
    | .encodePath => c = byte '?'
    | .encodePathSegment => c = byte '/' || c = byte ';' || c = byte ',' || c = byte '?'
    | .encodeUserPassword => c = byte '@' || c = byte '/' || c = byte '?' || c = byte ':'
    | .encodeQueryComponent => true
    | .encodeFragment => false
    | _ => true
  else if mode = .encodeFragment ∧ c ∈ go "!()*" then false
  -- Everything else must be escaped.
  else true

/-- First loop of Go `unescape`: checks that the escapes of `s` are well formed
and allowed in `mode`. -/
def unescapeCheck (mode : encoding) : GoString → Except error Unit
  | [] => .ok ()
  | c :: rest =>
    if c = byte '%' then
      match rest with
      | a :: b :: rest2 =>
        if !ishex a || !ishex b then .error "invalid URL escape"
        -- in the host component %-encoding can only be used for non-ASCII
        -- bytes, but %25 may escape a percent sign in IPv6 scoped addresses
        else if mode = .encodeHost ∧ unhex a < 8 ∧ [c, a, b] ≠ go "%25" then
          .error "invalid URL escape"
        else if mode = .encodeZone ∧ [c, a, b] ≠ go "%25" ∧
            (unhex a <<< 4 ||| unhex b) ≠ byte ' ' ∧
            shouldEscape (unhex a <<< 4 ||| unhex b) .encodeHost then
          .error "invalid URL escape"
        else unescapeCheck mode rest2
      | _ => .error "invalid URL escape"
    else if c = byte '+' then unescapeCheck mode rest
    else if (mode = .encodeHost ∨ mode = .encodeZone) ∧ c < 0x80 ∧
        shouldEscape c .encodeHost then
      .error "invalid character in host name"
    else unescapeCheck mode rest

/-- Second loop of Go `unescape`: replaces every `%XX` by its byte (and `+` by
a space in query components).  On a string without `%` (and, for query
components, without `+`) it returns the string itself, which is the
early return of the Go code. -/
def unescapeBytes (mode : encoding) : GoString → GoString
  | [] => []
  | c :: rest =>
    if c = byte '%' then
      match rest with
      | a :: b :: rest2 => (unhex a <<< 4 ||| unhex b) :: unescapeBytes mode rest2
      | _ => c :: rest
    else if c = byte '+' then
      (if mode = .encodeQueryComponent then byte ' ' else byte '+') :: unescapeBytes mode rest
    else c :: unescapeBytes mode rest

/-- Go `unescape`. -/
def unescape (s : GoString) (mode : encoding) : Except error GoString :=
  match unescapeCheck mode s with
  | .error e => .error e
  | .ok _ => .ok (unescapeBytes mode s)

/-- Go `upperhex[i]`. -/
def upperhex (i : UInt8) : UInt8 :=
  if i < 10 then byte '0' + i else byte 'A' + (i - 10)

/-- Go `escape`: percent-escapes the bytes of `s` that `shouldEscape` in `mode`. -/
def escape (s : GoString) (mode : encoding) : GoString :=
  s.flatMap fun c =>
    if c = byte ' ' ∧ mode = .encodeQueryComponent then [byte '+']
    else if shouldEscape c mode then [byte '%', upperhex (c >>> 4), upperhex (c &&& 15)]
    else [c]

/-- Go `validEncoded`: whether `s` is a valid encoded path or fragment. -/
def validEncoded (s : GoString) (mode : encoding) : Bool :=
  s.all fun c =>
    if c ∈ go "!$&" ++ [byte '\''] ++ go "()*+,;=:@" then true
    else if c = byte '[' ∨ c = byte ']' then true
    else if c = byte '%' then true
    else !shouldEscape c mode

/-- Go `stringContainsCTLByte`. -/
def stringContainsCTLByte (s : GoString) : Bool :=
  s.any fun b => b < byte ' ' || b = 0x7f

/-- Loop of Go `getScheme`, at index `i` with `s = rawURL[i:]`. -/
def getSchemeLoop (rawURL : GoString) : Nat → GoString → Except error (GoString × GoString)
  | _, [] => .ok ([], rawURL)
  | i, c :: s =>
    if isLetter c then getSchemeLoop rawURL (i + 1) s
    else if isDigit c || c = byte '+' || c = byte '-' || c = byte '.' then
      if i = 0 then .ok ([], rawURL) else getSchemeLoop rawURL (i + 1) s
    else if c = byte ':' then
      if i = 0 then .error "missing protocol scheme"
      else .ok (rawURL.take i, rawURL.drop (i + 1))
    else
      -- we have encountered an invalid character, so there is no valid scheme
      .ok ([], rawURL)

/-- Go `getScheme`: splits off a leading `scheme:`. -/
def getScheme (rawURL : GoString) : Except error (GoString × GoString) :=
  getSchemeLoop rawURL 0 rawURL

/-- Go `strings.ToLower` on the ASCII text of a scheme. -/
def toLower (s : GoString) : GoString :=
  s.map fun c => if byte 'A' ≤ c && c ≤ byte 'Z' then c + 32 else c

/-- Go `validOptionalPort`: `port` is empty or `:` followed by digits.  (The Go loop ranges
over runes; a rune is a digit exactly when it is a single digit byte.) -/
def validOptionalPort (port : GoString) : Bool :=
  match port with
  | [] => true
  | c :: ds => if c ≠ byte ':' then false else ds.all isDigit

/-- Go `validUserinfo`.  (The Go loop ranges over runes and accepts ASCII runes only, so it
accepts a string exactly when every byte is one of the accepted ASCII bytes.) -/
def validUserinfo (s : GoString) : Bool :=
  s.all fun r =>
    isLetter r || isDigit r || r ∈ go "-._:~!$&" ++ [byte '\''] ++ go "()*+,;=%@"

/-- Go `parseHost`: checks the port and brackets of a host and unescapes it. -/
def parseHost (host : GoString) : Except error GoString := do
  let plain : Except error GoString := unescape host .encodeHost
  if (go "[").isPrefixOf host then
    -- Parse an IP-Literal in RFC 3986 and RFC 6874.
    match lastIndexByte host (byte ']') with
    | none => .error "missing ']' in host"
    | some i =>
      let colonPort := host.drop (i + 1)
      if !validOptionalPort colonPort then .error "invalid port after host"
      else
        -- %25 (%-encoded percent) introduces the zone identifier
        match index (host.take i) (go "%25") with
        | some zone =>
          let host1 ← unescape (host.take zone) .encodeHost
          let host2 ← unescape ((host.take i).drop zone) .encodeZone
          let host3 ← unescape (host.drop i) .encodeHost
          pure (host1 ++ host2 ++ host3)
        | none => plain
  else
    match lastIndexByte host (byte ':') with
    | some i =>
      let colonPort := host.drop i
      if !validOptionalPort colonPort then .error "invalid port after host"
      else plain
    | none => plain

/-- Go `parseAuthority`: splits `[userinfo@]host`. -/
def parseAuthority (authority : GoString) : Except error (Option Userinfo × GoString) := do
  match lastIndexByte authority (byte '@') with
  | none =>
    let host ← parseHost authority
    pure (none, host)
  | some i =>
    let host ← parseHost (authority.drop (i + 1))
    let userinfo := authority.take i
    if !validUserinfo userinfo then .error "net/url: invalid userinfo"
    else if (indexByte userinfo (byte ':')).isNone then
      let userinfo ← unescape userinfo .encodeUserPassword
      pure (some { username := userinfo }, host)
    else
      let (username, password, _) := cut userinfo (byte ':')
      let username ← unescape username .encodeUserPassword
      let password ← unescape password .encodeUserPassword
      pure (some { username := username, password := password, passwordSet := true }, host)

/-- Go `(*URL).setPath`. -/
def URL.setPath (u : URL) (p : GoString) : Except error URL := do
  let path ← unescape p .encodePath
  if p = escape path .encodePath then
    -- Default encoding is fine.
    pure { u with Path := path, RawPath := [] }
  else pure { u with Path := path, RawPath := p }

/-- Go `(*URL).setFragment`. -/
def URL.setFragment (u : URL) (f : GoString) : Except error URL := do
  let frag ← unescape f .encodeFragment
  if f = escape frag .encodeFragment then
    pure { u with Fragment := frag, RawFragment := [] }
  else pure { u with Fragment := frag, RawFragment := f }

/-- Go `parse` of `net/url`: parses a URL without fragment. -/
def parse (rawURL : GoString) (viaRequest : Bool) : Except error URL := do
  if stringContainsCTLByte rawURL then
    throw "net/url: invalid control character in URL"
  if rawURL = [] ∧ viaRequest then
    throw "empty url"
  if rawURL = go "*" then
    return { Path := go "*" }
  -- Split off possible leading "http:", "mailto:", etc.
  let (scheme, rest) ← getScheme rawURL
  let url : URL := { Scheme := toLower scheme }
  let (rest, url) :=
    if rest.getLast? = some (byte '?') ∧ rest.count (byte '?') = 1 then
      (rest.dropLast, { url with ForceQuery := true })
    else
      let (before, after, _) := cut rest (byte '?')
      (before, { url with RawQuery := after })
  if !(go "/").isPrefixOf rest then
    if url.Scheme ≠ [] then
      -- We consider rootless paths per RFC 3986 as opaque.
      return { url with Opaque := rest }
    if viaRequest then
      throw "invalid URI for request"
    -- Avoid confusion with malformed schemes, like cache_object:foo/bar.
    if (indexByte (cut rest (byte '/')).1 (byte ':')).isSome then
      -- First path segment has colon. Not allowed in relative URL.
      throw "first path segment in URL cannot contain colon"
  if (url.Scheme ≠ [] ∨ !viaRequest ∧ !(go "///").isPrefixOf rest) ∧ (go "//").isPrefixOf rest then
    let authority := rest.drop 2
    let (authority, rest) :=
      match indexByte authority (byte '/') with
      | some i => (authority.take i, authority.drop i)
      | none => (authority, [])
    let (user, host) ← parseAuthority authority
    URL.setPath { url with User := user, Host := host } rest
  else if url.Scheme ≠ [] ∧ (go "/").isPrefixOf rest then
    -- OmitHost is set to true when rawURL has an empty host (authority).
    URL.setPath { url with OmitHost := true } rest
  else
    URL.setPath url rest

/-- Go `url.Parse`: parses a raw URL into a URL structure. -/
def Parse (rawURL : GoString) : Except error URL := do
  -- Cut off #frag
  let (u, frag, _) := cut rawURL (byte '#')
  let url ← parse u false
  if frag = [] then
    return url
  url.setFragment frag

/-- Go `(*Userinfo).String` on userinfo that is present. -/
def Userinfo.String (u : Userinfo) : GoString :=
  let s := escape u.username .encodeUserPassword
  if u.passwordSet then s ++ go ":" ++ escape u.password .encodeUserPassword else s

/-- Go `(*URL).EscapedPath`. -/
def URL.EscapedPath (u : URL) : GoString :=
  if u.RawPath ≠ [] ∧ validEncoded u.RawPath .encodePath ∧
      unescape u.RawPath .encodePath = .ok u.Path then
    u.RawPath
  else if u.Path = go "*" then
    go "*" -- don't escape (Issue 11202)
  else escape u.Path .encodePath

/-- Go `(*URL).EscapedFragment`. -/
def URL.EscapedFragment (u : URL) : GoString :=
  if u.RawFragment ≠ [] ∧ validEncoded u.RawFragment .encodeFragment ∧
      unescape u.RawFragment .encodeFragment = .ok u.Fragment then
    u.RawFragment
  else escape u.Fragment .encodeFragment

/-- Go `(*URL).String`: reassembles the URL into a valid URL string. -/
def URL.String (u : URL) : GoString :=
  let buf : GoString := if u.Scheme ≠ [] then u.Scheme ++ go ":" else []
  let buf : GoString :=
    if u.Opaque ≠ [] then buf ++ u.Opaque
    else
      let buf : GoString :=
        if u.Scheme ≠ [] ∨ u.Host ≠ [] ∨ u.User.isSome then
          if u.OmitHost ∧ u.Host = [] ∧ u.User.isNone then
            -- omit empty host
            buf
          else
            let buf := if u.Host ≠ [] ∨ u.Path ≠ [] ∨ u.User.isSome then buf ++ go "//" else buf
            let buf :=
              match u.User with
              | some ui => buf ++ ui.String ++ go "@"
              | none => buf
            if u.Host ≠ [] then buf ++ escape u.Host .encodeHost else buf
        else buf
      let path := u.EscapedPath
      let buf :=
        if path ≠ [] ∧ path.head? ≠ some (byte '/') ∧ u.Host ≠ [] then buf ++ go "/" else buf
      let buf :=
        -- RFC 3986 §4.2: a first segment with a colon must be preceded by "./"
        if buf = [] ∧ (indexByte (cut path (byte '/')).1 (byte ':')).isSome then buf ++ go "./"
        else buf
      buf ++ path
  let buf := if u.ForceQuery ∨ u.RawQuery ≠ [] then buf ++ go "?" ++ u.RawQuery else buf
  if u.Fragment ≠ [] then buf ++ go "#" ++ u.EscapedFragment else buf

/-- Go `splitHostPort` of `net/url`: separates host and port; a bracketed host
loses its brackets. -/
def splitHostPort (hostPort : GoString) : GoString × GoString :=
  let (host, port) :=
    match lastIndexByte hostPort (byte ':') with
    | some colon =>
      if validOptionalPort (hostPort.drop colon) then
        (hostPort.take colon, hostPort.drop (colon + 1))
      else (hostPort, [])
    | none => (hostPort, [])
  if (go "[").isPrefixOf host ∧ (go "]").isSuffixOf host then
    ((host.drop 1).take (host.length - 2), port)
  else (host, port)

/-- Go `(*URL).Hostname`: the host without any valid port number. -/
def URL.Hostname (u : URL) : GoString := (splitHostPort u.Host).1

/-- Go `(*URL).Port`: the port part of the host, without the leading colon. -/
def URL.Port (u : URL) : GoString := (splitHostPort u.Host).2

/-! ## Package `loadbalancer` (collaborator) -/

/-- Modelled from the spec: a health-check function (`loadbalancer.HealthCheckFunc`
is declared outside the sources): a liveness probe for one backend address. -/
abbrev HealthCheckFunc := Unit → Bool

/-- Modelled from the spec: the two fixed service identifiers
`loadbalancer.SupervisorServiceName` and `loadbalancer.APIServerServiceName`
(declared outside the sources). -/
inductive ServiceName where
  | SupervisorServiceName
  | APIServerServiceName
deriving DecidableEq, Repr

/-- Modelled from the spec: the `loadbalancer.LoadBalancer` collaborator (declared
outside the sources), as far as the proxy observes it: its stable local URL,
and what the proxy has handed to it through `Update`, `SetDefault` and
`SetHealthCheck`. -/
structure LoadBalancer where
  /-- What `LocalURL()` returns. -/
  localURL : GoString
  /-- The membership list of the last `Update`. -/
  servers : List GoString := []
  /-- The address of the last `SetDefault`. -/
  defaultAddress : Option GoString := none
  /-- The health checks registered by `SetHealthCheck`, latest first. -/
  healthChecks : List (GoString × HealthCheckFunc) := []

/-- Modelled from the spec: `handle.LocalURL()`. -/
def LoadBalancer.LocalURL (lb : LoadBalancer) : GoString := lb.localURL

/-- Modelled from the spec: `handle.Update(addresses)` replaces the backend membership set. -/
def LoadBalancer.Update (lb : LoadBalancer) (addresses : List GoString) : LoadBalancer :=
  { lb with servers := addresses }

/-- Modelled from the spec: `handle.SetDefault(address)` designates the fallback backend. -/
def LoadBalancer.SetDefault (lb : LoadBalancer) (address : GoString) : LoadBalancer :=
  { lb with defaultAddress := some address }

/-- Modelled from the spec: `handle.SetHealthCheck(address, fn)` associates a liveness probe
with one backend address. -/
def LoadBalancer.SetHealthCheck (lb : LoadBalancer) (address : GoString)
    (healthCheck : HealthCheckFunc) : LoadBalancer :=
  { lb with healthChecks := (address, healthCheck) :: lb.healthChecks }

/-- Modelled from the spec: the two package-level functions of `loadbalancer` whose
outcome depends on the host (`SetHTTPProxy` on the process environment, `New`
on the listener it binds).  Their results are taken from the environment of
the call: `SetHTTPProxy address` returns an error or `none`, and
`New dataDir serviceName defaultServerURL lbServerPort isIPv6` returns a handle
or an error. -/
structure Env where
  SetHTTPProxy : GoString → Option error
  New : GoString → ServiceName → GoString → Int → Bool → Except error LoadBalancer

/-! ## The proxy -/

/-- The Go `context.Context` handed to the load balancers; the proxy only passes it on. -/
structure Context where
deriving DecidableEq, Repr

/-- The `proxy` struct. -/
structure proxy where
  dataDir : GoString
  lbEnabled : Bool
  lbServerPort : Int
  apiServerEnabled : Bool := false
  apiServerURL : GoString
  apiServerPort : GoString := []
  supervisorURL : GoString
  supervisorPort : GoString := []
  initialSupervisorURL : GoString
  fallbackSupervisorAddress : GoString := []
  supervisorAddresses : List GoString := []
  apiServerLB : Option LoadBalancer := none
  supervisorLB : Option LoadBalancer := none
  context : Context := {}

/-- `NewSupervisorProxy` sets up a new proxy for retrieving supervisor and
apiserver addresses (lines 35-68). -/
def NewSupervisorProxy (env : Env) (ctx : Context) (lbEnabled : Bool)
    (dataDir supervisorURL : GoString) (lbServerPort : Int) (isIPv6 : Bool) :
    Except error proxy := do
  let p : proxy := {
    lbEnabled := lbEnabled
    dataDir := dataDir
    initialSupervisorURL := supervisorURL
    supervisorURL := supervisorURL
    apiServerURL := supervisorURL
    lbServerPort := lbServerPort
    context := ctx }
  let p ←
    if lbEnabled then
      match env.SetHTTPProxy supervisorURL with
      | some err => throw err
      | none =>
        let lb ← env.New dataDir .SupervisorServiceName supervisorURL p.lbServerPort isIPv6
        let p := { p with supervisorLB := some lb }
        let p := { p with supervisorURL := lb.LocalURL }
        pure { p with apiServerURL := p.supervisorURL }
    else pure p
  match Parse p.initialSupervisorURL with
  | .error err => throw ("failed to parse URL: " ++ err)
  | .ok u =>
    let p := { p with fallbackSupervisorAddress := u.Host }
    pure { p with supervisorPort := u.Port }

/-- `setSupervisorPort` (lines 117-128): rewrites every address that splits to the
supervisor port and drops the others. -/
def proxy.setSupervisorPort (p : proxy) (addresses : List GoString) : List GoString :=
  addresses.foldl
    (fun newAddresses address =>
      match SplitHostPort address with
      | .error _ => newAddresses
      | .ok (h, _) => newAddresses ++ [JoinHostPort h p.supervisorPort])
    []

/-- `Update` (lines 89-103). -/
def proxy.Update (p : proxy) (addresses : List GoString) : proxy :=
  let apiServerAddresses := addresses
  let supervisorAddresses := addresses
  let supervisorAddresses :=
    if p.apiServerEnabled then p.setSupervisorPort supervisorAddresses else supervisorAddresses
  let p := { p with apiServerLB := p.apiServerLB.map fun (lb : LoadBalancer) => lb.Update apiServerAddresses }
  let p := { p with supervisorLB := p.supervisorLB.map fun (lb : LoadBalancer) => lb.Update supervisorAddresses }
  { p with supervisorAddresses := supervisorAddresses }

/-- `SetHealthCheck` (lines 105-115). -/
def proxy.SetHealthCheck (p : proxy) (address : GoString) (healthCheck : HealthCheckFunc) :
    proxy :=
  let p := { p with supervisorLB := p.supervisorLB.map fun (lb : LoadBalancer) => lb.SetHealthCheck address healthCheck }
  match p.apiServerLB with
  | some lb =>
    let host :=
      match SplitHostPort address with
      | .ok (host, _) => host
      | .error _ => []
    let address := JoinHostPort host p.apiServerPort
    { p with apiServerLB := some (lb.SetHealthCheck address healthCheck) }
  | none => p

/-- The local port requested for the apiserver load balancer (lines 149-152). -/
def apiServerLBPort (lbServerPort : Int) : Int :=
  if lbServerPort ≠ 0 then wrapInt (lbServerPort - 1) else lbServerPort

/-- `SetAPIServerPort` (lines 135-166): the proxy after the call and the returned
error (`none` for `nil`). -/
def proxy.SetAPIServerPort (env : Env) (p : proxy) (port : Int) (isIPv6 : Bool) :
    proxy × Option error :=
  if p.apiServerEnabled then
    (p, none)
  else
    match Parse p.initialSupervisorURL with
    | .error err => (p, some ("failed to parse server URL: " ++ err))
    | .ok u =>
      let p := { p with apiServerPort := Itoa port }
      let u := { u with Host := JoinHostPort u.Hostname p.apiServerPort }
      if p.lbEnabled ∧ p.apiServerLB.isNone then
        match env.New p.dataDir .APIServerServiceName u.String
            (apiServerLBPort p.lbServerPort) isIPv6 with
        | .error err => (p, some err)
        | .ok lb =>
          let p := { p with apiServerLB := some lb }
          let p := { p with apiServerURL := lb.LocalURL }
          ({ p with apiServerEnabled := true }, none)
      else
        let p := { p with apiServerURL := u.String }
        ({ p with apiServerEnabled := true }, none)

/-- `SetSupervisorDefault` (lines 172-188). -/
def proxy.SetSupervisorDefault (p : proxy) (address : GoString) : proxy :=
  match SplitHostPort address with
  | .error _ => p
  | .ok (host, _) =>
    let address := if p.apiServerEnabled then JoinHostPort host p.supervisorPort else address
    let p := { p with fallbackSupervisorAddress := address }
    match p.supervisorLB with
    | none => { p with supervisorURL := go "https://" ++ address }
    | some lb => { p with supervisorLB := some (lb.SetDefault address) }

/-- `IsSupervisorLBEnabled` (lines 190-192). -/
def proxy.IsSupervisorLBEnabled (p : proxy) : Bool := p.supervisorLB.isSome

/-- `SupervisorURL` (lines 194-196). -/
def proxy.SupervisorURL (p : proxy) : GoString := p.supervisorURL

/-- `SupervisorAddresses` (lines 198-203). -/
def proxy.SupervisorAddresses (p : proxy) : List GoString :=
  if p.supervisorAddresses.length > 0 then p.supervisorAddresses
  else [p.fallbackSupervisorAddress]

/-- `APIServerURL` (lines 205-207). -/
def proxy.APIServerURL (p : proxy) : GoString := p.apiServerURL

/-- `IsAPIServerLBEnabled` (lines 209-211). -/
def proxy.IsAPIServerLBEnabled (p : proxy) : Bool := p.apiServerLB.isSome

/-! ## Sequences of calls -/

/-- One call of a state-changing method of the `Proxy` interface. -/
inductive Call where
  | Update (addresses : List GoString)
  | SetAPIServerPort (env : Env) (port : Int) (isIPv6 : Bool)
  | SetSupervisorDefault (address : GoString)
  | SetHealthCheck (address : GoString) (healthCheck : HealthCheckFunc)

/-- The proxy after one call. -/
def Call.apply (p : proxy) : Call → proxy
  | .Update addresses => p.Update addresses
  | .SetAPIServerPort env port isIPv6 => (p.SetAPIServerPort env port isIPv6).1
  | .SetSupervisorDefault address => p.SetSupervisorDefault address
  | .SetHealthCheck address healthCheck => p.SetHealthCheck address healthCheck

/-- The proxy after a sequence of calls, in order. -/
def run (p : proxy) (calls : List Call) : proxy := calls.foldl Call.apply p

/-! ## Concrete environments and proxies -/

/-- An environment in which every load balancer fails to start. -/
def failingEnv : Env :=
  { SetHTTPProxy := fun _ => none
    New := fun _ _ _ _ _ => .error "listen: address already in use" }

/-- An environment in which load balancers start on the loopback address and
report the requested port in their local URL. -/
def loopbackEnv : Env :=
  { SetHTTPProxy := fun _ => none
    New := fun _ _ _ lbServerPort _ =>
      .ok { localURL := go "https://127.0.0.1:" ++ Itoa lbServerPort } }

/-- The proxy `NewSupervisorProxy` builds for `https://10.0.0.1:6443` without load balancing. -/
def directProxy : proxy :=
  { dataDir := go "/var/lib/rancher/k3s/agent"
    lbEnabled := false
    lbServerPort := 6444
    apiServerURL := go "https://10.0.0.1:6443"
    supervisorURL := go "https://10.0.0.1:6443"
    supervisorPort := go "6443"
    initialSupervisorURL := go "https://10.0.0.1:6443"
    fallbackSupervisorAddress := go "10.0.0.1:6443" }

/-- The proxy `NewSupervisorProxy` builds for `https://10.0.0.1:6443` with load balancing
in `loopbackEnv`. -/
def balancedProxy : proxy :=
  { dataDir := go "/var/lib/rancher/k3s/agent"
    lbEnabled := true
    lbServerPort := 6444
    apiServerURL := go "https://127.0.0.1:6444"
    supervisorURL := go "https://127.0.0.1:6444"
    supervisorPort := go "6443"
    initialSupervisorURL := go "https://10.0.0.1:6443"
    fallbackSupervisorAddress := go "10.0.0.1:6443"
    supervisorLB := some { localURL := go "https://127.0.0.1:6444" } }

/-! ## Specification-side definitions -/

/-- Whether an address splits into host and port. -/
def splits (address : GoString) : Bool :=
  match SplitHostPort address with
  | .ok _ => true
  | .error _ => false

/-- The host part of an address that splits (empty otherwise). -/
def hostOf (address : GoString) : GoString :=
  match SplitHostPort address with
  | .ok (host, _) => host
  | .error _ => []

/-- Port rewriting as the specification words it: the sub-sequence of the entries
that split, in order, each rewritten to `JoinHostPort host supervisorPort`. -/
def rewrittenToPort (supervisorPort : GoString) (addresses : List GoString) : List GoString :=
  (addresses.filter splits).map fun a => JoinHostPort (hostOf a) supervisorPort

/-- The proxy `NewSupervisorProxy` builds for the empty supervisor URL without load
balancing. -/
def emptyProxy : proxy :=
  { dataDir := []
    lbEnabled := false
    lbServerPort := 0
    apiServerURL := []
    supervisorURL := []
    initialSupervisorURL := [] }

/-- What every call preserves: the fields no call writes, the presence of the supervisor load
balancer, and the API server flag once it is set. -/
def Frame (p q : proxy) : Prop :=
  q.initialSupervisorURL = p.initialSupervisorURL ∧ q.supervisorPort = p.supervisorPort ∧
  q.lbEnabled = p.lbEnabled ∧ q.dataDir = p.dataDir ∧ q.lbServerPort = p.lbServerPort ∧
  q.context = p.context ∧ q.supervisorLB.isSome = p.supervisorLB.isSome ∧
  (p.apiServerEnabled = true → q.apiServerEnabled = true)

/-- Every load balancer the environment starts reports a non-empty local URL. -/
def Env.localURLsNonEmpty (env : Env) : Prop :=
  ∀ dataDir serviceName defaultServerURL lbServerPort isIPv6 lb,
    env.New dataDir serviceName defaultServerURL lbServerPort isIPv6 = .ok lb →
    lb.LocalURL ≠ []

/-- The environment of a call, if it uses one, starts load balancers with a non-empty
local URL. -/
def Call.localURLsNonEmpty : Call → Prop
  | .SetAPIServerPort env _ _ => env.localURLsNonEmpty
  | _ => True

/-- An entry carries the port `port`: it splits into some host and `port`. -/
def hasPort (port address : GoString) : Prop :=
  ∃ host, SplitHostPort address = .ok (host, port)

/-- The call is an `Update`. -/
def Call.isUpdate : Call → Bool
  | .Update _ => true
  | _ => false

/-- The call is a `SetSupervisorDefault` with an address that splits (one that is not
discarded). -/
def Call.setsDefault : Call → Bool
  | .SetSupervisorDefault address => splits address
  | _ => false

/-- The call is a `SetSupervisorDefault`, whatever its address. -/
def Call.isSetSupervisorDefault : Call → Bool
  | .SetSupervisorDefault _ => true
  | _ => false

/-- The shape of a proxy with load balancing: the supervisor load balancer exists and
provides `supervisorURL`; the API server load balancer exists exactly when the API server
port is set, and `apiServerURL` is its local URL, or the supervisor one without it. -/
def Balanced (q : proxy) : Prop :=
  q.lbEnabled = true ∧ ∃ slb, q.supervisorLB = some slb ∧ q.supervisorURL = slb.LocalURL ∧
    ((∃ alb, q.apiServerLB = some alb ∧ q.apiServerEnabled = true ∧
        q.apiServerURL = alb.LocalURL) ∨
      (q.apiServerLB = none ∧ q.apiServerEnabled = false ∧ q.apiServerURL = slb.LocalURL))

/-- The shape of a proxy without load balancing: no load balancer exists, and until the
API server port is set `apiServerURL` is the initial supervisor URL. -/
def Direct (q : proxy) : Prop :=
  q.lbEnabled = false ∧ q.supervisorLB = none ∧ q.apiServerLB = none ∧
    (q.apiServerEnabled = false → q.apiServerURL = q.initialSupervisorURL)

/-! ## Lemmas on byte search -/

theorem indexByte_eq_none_iff (s : GoString) (c : UInt8) : indexByte s c = none ↔ c ∉ s := by
  induction s with
  | nil => simp [indexByte]
  | cons x xs ih =>
    by_cases hx : x = c
    · simp [indexByte, hx]
    · have hx2 : ¬ c = x := fun h => hx h.symm
      simp [indexByte, hx, hx2, ih]

theorem indexByte_isSome_iff (s : GoString) (c : UInt8) : (indexByte s c).isSome = true ↔ c ∈ s := by
  rw [← not_iff_not, ← indexByte_eq_none_iff]
  cases indexByte s c <;> simp

theorem indexByte_append_cons (a b : GoString) (c : UInt8) (h : c ∉ a) :
    indexByte (a ++ c :: b) c = some a.length := by
  induction a with
  | nil => simp [indexByte]
  | cons x xs ih =>
    have hx : ¬ x = c := fun e => h (by simp [e])
    have hxs : c ∉ xs := fun e => h (by simp [e])
    simp [indexByte, hx, ih hxs]

theorem indexByte_some (s : GoString) (c : UInt8) (i : Nat) (h : indexByte s c = some i) :
    c ∉ s.take i ∧ s.drop i = c :: s.drop (i + 1) := by
  induction s generalizing i with
  | nil => simp [indexByte] at h
  | cons x xs ih =>
    by_cases hx : x = c
    · simp [indexByte, hx] at h
      subst h
      simp [hx]
    · simp only [indexByte, hx, if_false, Option.map_eq_some'] at h
      obtain ⟨j, hj, rfl⟩ := h
      have hx2 : ¬ c = x := fun e => hx e.symm
      have := ih j hj
      simp [hx2, this.1, this.2]

theorem lastIndexByte_eq_none_iff (s : GoString) (c : UInt8) :
    lastIndexByte s c = none ↔ c ∉ s := by
  induction s with
  | nil => simp [lastIndexByte]
  | cons x xs ih =>
    by_cases hx : x = c
    · cases h : lastIndexByte xs c <;> simp [lastIndexByte, hx, h]
    · have hx2 : ¬ c = x := fun h => hx h.symm
      cases h : lastIndexByte xs c
      · simp [lastIndexByte, hx, hx2, h, ← ih]
      · have : c ∈ xs := by
          by_contra hc
          rw [← ih, h] at hc
          simp at hc
        simp [lastIndexByte, h, this]

theorem lastIndexByte_append_cons (a b : GoString) (c : UInt8) (h : c ∉ b) :
    lastIndexByte (a ++ c :: b) c = some a.length := by
  induction a with
  | nil => simp [lastIndexByte, (lastIndexByte_eq_none_iff b c).2 h]
  | cons x xs ih => simp [lastIndexByte, ih]

theorem lastIndexByte_some (s : GoString) (c : UInt8) (i : Nat) (h : lastIndexByte s c = some i) :
    s.drop i = c :: s.drop (i + 1) ∧ c ∉ s.drop (i + 1) := by
  induction s generalizing i with
  | nil => simp [lastIndexByte] at h
  | cons x xs ih =>
    cases hl : lastIndexByte xs c with
    | some j =>
      simp only [lastIndexByte, hl, Option.some.injEq] at h
      subst h
      simpa using ih j hl
    | none =>
      by_cases hx : x = c
      · simp [lastIndexByte, hl, hx] at h
        subst h
        simpa [hx] using (lastIndexByte_eq_none_iff xs c).1 hl
      · simp [lastIndexByte, hl, hx] at h

/-! ## Lemmas on `SplitHostPort` and `JoinHostPort` -/

theorem SplitHostPort_JoinHostPort (host port : GoString)
    (hl : byte '[' ∉ host) (hr : byte ']' ∉ host)
    (hc : byte ':' ∉ port) (hpl : byte '[' ∉ port) (hpr : byte ']' ∉ port) :
    SplitHostPort (JoinHostPort host port) = .ok (host, port) := by
  have e1 : go "[" = [byte '['] := by decide
  have e2 : go "]:" = [byte ']', byte ':'] := by decide
  have e3 : go ":" = [byte ':'] := by decide
  have n1 : byte '[' ≠ byte ']' := by decide
  have n2 : byte '[' ≠ byte ':' := by decide
  have n3 : byte ']' ≠ byte ':' := by decide
  by_cases hcolon : byte ':' ∈ host
  · have hj : JoinHostPort host port = byte '[' :: (host ++ byte ']' :: byte ':' :: port) := by
      simp [JoinHostPort, (indexByte_isSome_iff host _).2 hcolon, e1, e2]
    have hlast : lastIndexByte (byte '[' :: (host ++ byte ']' :: byte ':' :: port)) (byte ':')
        = some (host.length + 2) := by
      have := lastIndexByte_append_cons (byte '[' :: (host ++ [byte ']'])) port (byte ':') hc
      simpa using this
    have hfirst : indexByte (byte '[' :: (host ++ byte ']' :: byte ':' :: port)) (byte ']')
        = some (host.length + 1) := by
      have := indexByte_append_cons (byte '[' :: host) (byte ':' :: port) (byte ']')
        (by simp [hr, n1.symm])
      simpa using this
    have hnl : indexByte (host ++ byte ']' :: byte ':' :: port) (byte '[') = none := by
      rw [indexByte_eq_none_iff]
      simp [hl, hpl, n1, n2]
    have hnr : indexByte (byte ':' :: port) (byte ']') = none := by
      rw [indexByte_eq_none_iff]
      simp [hpr, n3]
    have hd1 : host.drop (host.length + 1) = [] := List.drop_eq_nil_of_le (by omega)
    have hd2 : host.drop (host.length + 2) = [] := List.drop_eq_nil_of_le (by omega)
    rw [hj]
    simp only [SplitHostPort, hlast, hfirst]
    simp [hnl, hnr, hd1, hd2, List.take_append_eq_append_take, List.drop_append_eq_append_drop]
  · have hj : JoinHostPort host port = host ++ byte ':' :: port := by
      have : indexByte host (byte ':') = none := (indexByte_eq_none_iff host _).2 hcolon
      simp [JoinHostPort, this, e3]
    have hlast : lastIndexByte (host ++ byte ':' :: port) (byte ':') = some host.length :=
      lastIndexByte_append_cons host port (byte ':') hc
    have hhead : ¬ host.head? = some (byte '[') := by
      cases host with
      | nil => simp
      | cons x xs =>
        have : x ≠ byte '[' := fun e => hl (by simp [e])
        simp [this]
    have hnc : indexByte host (byte ':') = none := (indexByte_eq_none_iff host _).2 hcolon
    have hnl : indexByte (host ++ byte ':' :: port) (byte '[') = none := by
      rw [indexByte_eq_none_iff]
      simp [hl, hpl, n2]
    have hnr : indexByte (host ++ byte ':' :: port) (byte ']') = none := by
      rw [indexByte_eq_none_iff]
      simp [hr, hpr, n3]
    rw [hj]
    simp only [SplitHostPort, hlast]
    simp [hhead, hnc, hnl, hnr, n2.symm]

theorem SplitHostPort_ok_host (address host port : GoString)
    (hs : SplitHostPort address = .ok (host, port)) :
    byte '[' ∉ host ∧ byte ']' ∉ host := by
  cases hlast : lastIndexByte address (byte ':') with
  | none => simp [SplitHostPort, hlast] at hs
  | some i =>
    by_cases hhead : address.head? = some (byte '[')
    · cases hfirst : indexByte address (byte ']') with
      | none => simp [SplitHostPort, hlast, hhead, hfirst] at hs
      | some e =>
        simp only [SplitHostPort, hlast, hhead, hfirst, if_true] at hs
        split_ifs at hs with h1 h2 h3 h4 h5
        simp only [Except.ok.injEq, Prod.mk.injEq] at hs
        obtain ⟨rfl, -⟩ := hs
        have hl : byte '[' ∉ address.drop 1 := by
          rw [← indexByte_isSome_iff]; exact h3
        have hr := (indexByte_some address _ e hfirst).1
        constructor
        · intro hc
          apply hl
          rw [List.drop_take] at hc
          exact List.mem_of_mem_take hc
        · exact fun hc => hr (List.mem_of_mem_drop hc)
    · simp only [SplitHostPort, hlast, hhead, if_false] at hs
      split_ifs at hs with h1 h2 h3
      simp only [Except.ok.injEq, Prod.mk.injEq] at hs
      obtain ⟨rfl, -⟩ := hs
      have hl : byte '[' ∉ address := by
        rw [← indexByte_isSome_iff]; simpa using h2
      have hr : byte ']' ∉ address := by
        rw [← indexByte_isSome_iff]; simpa using h3
      exact ⟨fun hc => hl (List.mem_of_mem_take hc), fun hc => hr (List.mem_of_mem_take hc)⟩

/-! ## Lemmas on the port of a URL -/

theorem isDigit_not_separator (c : UInt8) (h : isDigit c = true) :
    c ≠ byte ':' ∧ c ≠ byte '[' ∧ c ≠ byte ']' := by
  refine ⟨?_, ?_, ?_⟩ <;> (rintro rfl; revert h; decide)

theorem digits_no_separator (s : GoString) (h : s.all isDigit = true) :
    byte ':' ∉ s ∧ byte '[' ∉ s ∧ byte ']' ∉ s := by
  rw [List.all_eq_true] at h
  exact ⟨fun hc => (isDigit_not_separator _ (h _ hc)).1 rfl,
    fun hc => (isDigit_not_separator _ (h _ hc)).2.1 rfl,
    fun hc => (isDigit_not_separator _ (h _ hc)).2.2 rfl⟩

theorem splitHostPort_port_digits (hostPort : GoString) :
    (splitHostPort hostPort).2.all isDigit = true := by
  cases hlast : lastIndexByte hostPort (byte ':') with
  | none =>
    simp only [splitHostPort, hlast]
    split_ifs <;> rfl
  | some colon =>
    cases hv : validOptionalPort (hostPort.drop colon) with
    | true =>
      have hd := (lastIndexByte_some hostPort _ colon hlast).1
      have hall : (hostPort.drop (colon + 1)).all isDigit = true := by
        rw [hd] at hv
        simpa [validOptionalPort] using hv
      simp only [splitHostPort, hlast, hv, if_true]
      split_ifs <;> exact hall
    | false =>
      simp only [splitHostPort, hlast, hv, Bool.false_eq_true, if_false]
      split_ifs <;> rfl

theorem URL_Port_no_separator (u : URL) :
    byte ':' ∉ u.Port ∧ byte '[' ∉ u.Port ∧ byte ']' ∉ u.Port :=
  digits_no_separator _ (splitHostPort_port_digits u.Host)

/-! ## Lemmas on construction -/

theorem NewSupervisorProxy_direct (env : Env) (ctx : Context) (dataDir supervisorURL : GoString)
    (lbServerPort : Int) (isIPv6 : Bool) (p : proxy)
    (h : NewSupervisorProxy env ctx false dataDir supervisorURL lbServerPort isIPv6 = .ok p) :
    ∃ u, Parse supervisorURL = .ok u ∧
      p = { dataDir := dataDir, lbEnabled := false, lbServerPort := lbServerPort,
            apiServerURL := supervisorURL, supervisorURL := supervisorURL,
            supervisorPort := u.Port, initialSupervisorURL := supervisorURL,
            fallbackSupervisorAddress := u.Host, context := ctx } := by
  cases hp : Parse supervisorURL with
  | error e => simp [NewSupervisorProxy, hp, bind, Except.bind, pure, Except.pure, throw, throwThe, MonadExceptOf.throw] at h
  | ok u =>
    refine ⟨u, rfl, ?_⟩
    simp [NewSupervisorProxy, hp, bind, Except.bind, pure, Except.pure] at h
    exact h.symm

theorem NewSupervisorProxy_balanced (env : Env) (ctx : Context) (dataDir supervisorURL : GoString)
    (lbServerPort : Int) (isIPv6 : Bool) (p : proxy)
    (h : NewSupervisorProxy env ctx true dataDir supervisorURL lbServerPort isIPv6 = .ok p) :
    ∃ u lb, Parse supervisorURL = .ok u ∧
      env.New dataDir .SupervisorServiceName supervisorURL lbServerPort isIPv6 = .ok lb ∧
      p = { dataDir := dataDir, lbEnabled := true, lbServerPort := lbServerPort,
            apiServerURL := lb.LocalURL, supervisorURL := lb.LocalURL,
            supervisorPort := u.Port, initialSupervisorURL := supervisorURL,
            fallbackSupervisorAddress := u.Host, supervisorLB := some lb, context := ctx } := by
  cases hproxy : env.SetHTTPProxy supervisorURL with
  | some e => simp [NewSupervisorProxy, hproxy, bind, Except.bind, pure, Except.pure, throw, throwThe, MonadExceptOf.throw] at h
  | none =>
    cases hlb : env.New dataDir .SupervisorServiceName supervisorURL lbServerPort isIPv6 with
    | error e => simp [NewSupervisorProxy, hproxy, hlb, bind, Except.bind, pure, Except.pure] at h
    | ok lb =>
      cases hp : Parse supervisorURL with
      | error e => simp [NewSupervisorProxy, hproxy, hlb, hp, bind, Except.bind, pure, Except.pure, throw, throwThe, MonadExceptOf.throw] at h
      | ok u =>
        refine ⟨u, lb, rfl, rfl, ?_⟩
        simp [NewSupervisorProxy, hproxy, hlb, hp, bind, Except.bind, pure, Except.pure] at h
        exact h.symm

/-- What every successful construction establishes. -/
theorem NewSupervisorProxy_fields (env : Env) (ctx : Context) (lbEnabled : Bool)
    (dataDir supervisorURL : GoString) (lbServerPort : Int) (isIPv6 : Bool) (p : proxy)
    (h : NewSupervisorProxy env ctx lbEnabled dataDir supervisorURL lbServerPort isIPv6 = .ok p) :
    ∃ u, Parse supervisorURL = .ok u ∧ p.initialSupervisorURL = supervisorURL ∧
      p.supervisorPort = u.Port ∧ p.fallbackSupervisorAddress = u.Host ∧
      p.apiServerEnabled = false ∧ p.supervisorAddresses = [] ∧ p.lbEnabled = lbEnabled ∧
      p.apiServerLB = none ∧ p.supervisorLB.isSome = lbEnabled ∧
      p.apiServerURL = p.supervisorURL := by
  cases lbEnabled with
  | false =>
    obtain ⟨u, hu, rfl⟩ := NewSupervisorProxy_direct env ctx dataDir supervisorURL lbServerPort isIPv6 p h
    exact ⟨u, hu, rfl, rfl, rfl, rfl, rfl, rfl, rfl, rfl, rfl⟩
  | true =>
    obtain ⟨u, lb, hu, -, rfl⟩ :=
      NewSupervisorProxy_balanced env ctx dataDir supervisorURL lbServerPort isIPv6 p h
    exact ⟨u, hu, rfl, rfl, rfl, rfl, rfl, rfl, rfl, rfl, rfl⟩

/-! ## Lemmas on sequences of calls -/

theorem Frame_refl (p : proxy) : Frame p p :=
  ⟨rfl, rfl, rfl, rfl, rfl, rfl, rfl, id⟩

theorem Frame_trans (p q r : proxy) (h1 : Frame p q) (h2 : Frame q r) : Frame p r := by
  obtain ⟨a1, a2, a3, a4, a5, a6, a7, a8⟩ := h1
  obtain ⟨b1, b2, b3, b4, b5, b6, b7, b8⟩ := h2
  exact ⟨b1.trans a1, b2.trans a2, b3.trans a3, b4.trans a4, b5.trans a5, b6.trans a6,
    b7.trans a7, fun h => b8 (a8 h)⟩

theorem Update_frame (p : proxy) (addresses : List GoString) : Frame p (p.Update addresses) := by
  refine ⟨rfl, rfl, rfl, rfl, rfl, rfl, ?_, id⟩
  simp [proxy.Update]

theorem SetHealthCheck_frame (p : proxy) (address : GoString) (healthCheck : HealthCheckFunc) :
    Frame p (p.SetHealthCheck address healthCheck) := by
  unfold proxy.SetHealthCheck
  cases h : p.apiServerLB <;> simp [Frame, h]

theorem SetSupervisorDefault_frame (p : proxy) (address : GoString) :
    Frame p (p.SetSupervisorDefault address) := by
  unfold proxy.SetSupervisorDefault
  cases SplitHostPort address with
  | error e => exact Frame_refl p
  | ok hp =>
    cases h : p.supervisorLB <;> simp [Frame, h]

theorem SetAPIServerPort_frame (env : Env) (p : proxy) (port : Int) (isIPv6 : Bool) :
    Frame p (p.SetAPIServerPort env port isIPv6).1 := by
  unfold proxy.SetAPIServerPort
  split_ifs with h1
  · exact Frame_refl p
  · cases Parse p.initialSupervisorURL with
    | error e => exact Frame_refl p
    | ok u =>
      simp only []
      split_ifs with h2
      · split <;> simp [Frame, h1]
      · simp [Frame, h1]

theorem Call_apply_frame (p : proxy) (c : Call) : Frame p (Call.apply p c) := by
  cases c with
  | Update addresses => exact Update_frame p addresses
  | SetAPIServerPort env port isIPv6 => exact SetAPIServerPort_frame env p port isIPv6
  | SetSupervisorDefault address => exact SetSupervisorDefault_frame p address
  | SetHealthCheck address healthCheck => exact SetHealthCheck_frame p address healthCheck

theorem run_nil (p : proxy) : run p [] = p := rfl

theorem run_cons (p : proxy) (c : Call) (calls : List Call) :
    run p (c :: calls) = run (Call.apply p c) calls := rfl

theorem run_frame (p : proxy) (calls : List Call) : Frame p (run p calls) := by
  induction calls generalizing p with
  | nil => exact Frame_refl p
  | cons c calls ih =>
    rw [run_cons]
    exact Frame_trans _ _ _ (Call_apply_frame p c) (ih _)

/-- An invariant of every call is an invariant of every sequence of calls. -/
theorem run_invariant (P : proxy → Prop) (hstep : ∀ p c, P p → P (Call.apply p c))
    (p : proxy) (calls : List Call) (h : P p) : P (run p calls) := by
  induction calls generalizing p with
  | nil => exact h
  | cons c calls ih => exact ih _ (hstep p c h)

/-! ## Lemmas on port rewriting -/

theorem setSupervisorPort_foldl (supervisorPort : GoString) (acc : List GoString)
    (addresses : List GoString) :
    addresses.foldl
      (fun newAddresses address =>
        match SplitHostPort address with
        | .error _ => newAddresses
        | .ok (h, _) => newAddresses ++ [JoinHostPort h supervisorPort])
      acc = acc ++ rewrittenToPort supervisorPort addresses := by
  induction addresses generalizing acc with
  | nil => simp [rewrittenToPort]
  | cons a as ih =>
    rw [List.foldl_cons, ih]
    cases h : SplitHostPort a with
    | error e => simp [rewrittenToPort, splits, h]
    | ok hp => simp [rewrittenToPort, splits, hostOf, h]

theorem setSupervisorPort_eq (p : proxy) (addresses : List GoString) :
    p.setSupervisorPort addresses = rewrittenToPort p.supervisorPort addresses := by
  simpa [proxy.setSupervisorPort] using setSupervisorPort_foldl p.supervisorPort [] addresses

theorem Update_supervisorLB_servers (p : proxy) (addresses : List GoString) (lb : LoadBalancer)
    (h : (p.Update addresses).supervisorLB = some lb) :
    lb.servers = (p.Update addresses).supervisorAddresses := by
  cases hlb : p.supervisorLB with
  | none => simp [proxy.Update, hlb] at h
  | some lb0 =>
    simp only [proxy.Update, hlb, Option.map_some', Option.some.injEq] at h
    subst h
    simp [proxy.Update, LoadBalancer.Update]

theorem Update_enabled_supervisorAddresses (p : proxy) (addresses : List GoString)
    (h : p.apiServerEnabled = true) :
    (p.Update addresses).supervisorAddresses = rewrittenToPort p.supervisorPort addresses := by
  simp [proxy.Update, h, setSupervisorPort_eq]

theorem rewrittenToPort_entry_splits (supervisorPort : GoString) (addresses : List GoString)
    (hc : byte ':' ∉ supervisorPort) (hl : byte '[' ∉ supervisorPort)
    (hr : byte ']' ∉ supervisorPort) (e : GoString)
    (he : e ∈ rewrittenToPort supervisorPort addresses) :
    ∃ host, SplitHostPort e = .ok (host, supervisorPort) := by
  simp only [rewrittenToPort, List.mem_map, List.mem_filter] at he
  obtain ⟨a, ⟨-, ha⟩, rfl⟩ := he
  cases hs : SplitHostPort a with
  | error err => simp [splits, hs] at ha
  | ok hp =>
    obtain ⟨host, port⟩ := hp
    have hh := SplitHostPort_ok_host a host port hs
    refine ⟨host, ?_⟩
    simp only [hostOf, hs]
    exact SplitHostPort_JoinHostPort host supervisorPort hh.1 hh.2 hc hl hr

/-- The five outcomes of `SetAPIServerPort`. -/
theorem SetAPIServerPort_cases (env : Env) (p : proxy) (port : Int) (isIPv6 : Bool) :
    (p.apiServerEnabled = true ∧ p.SetAPIServerPort env port isIPv6 = (p, none)) ∨
    (p.apiServerEnabled = false ∧ ∃ e, Parse p.initialSupervisorURL = .error e ∧
      p.SetAPIServerPort env port isIPv6 = (p, some ("failed to parse server URL: " ++ e))) ∨
    (p.apiServerEnabled = false ∧ ∃ u e, Parse p.initialSupervisorURL = .ok u ∧
      p.lbEnabled = true ∧ p.apiServerLB = none ∧
      env.New p.dataDir .APIServerServiceName
        (URL.String { u with Host := JoinHostPort u.Hostname (Itoa port) })
        (apiServerLBPort p.lbServerPort) isIPv6 = .error e ∧
      p.SetAPIServerPort env port isIPv6 = ({ p with apiServerPort := Itoa port }, some e)) ∨
    (p.apiServerEnabled = false ∧ ∃ u lb, Parse p.initialSupervisorURL = .ok u ∧
      p.lbEnabled = true ∧ p.apiServerLB = none ∧
      env.New p.dataDir .APIServerServiceName
        (URL.String { u with Host := JoinHostPort u.Hostname (Itoa port) })
        (apiServerLBPort p.lbServerPort) isIPv6 = .ok lb ∧
      p.SetAPIServerPort env port isIPv6
        = ({ p with apiServerPort := Itoa port, apiServerLB := some lb,
                    apiServerURL := lb.LocalURL, apiServerEnabled := true }, none)) ∨
    (p.apiServerEnabled = false ∧ ∃ u, Parse p.initialSupervisorURL = .ok u ∧
      ¬ (p.lbEnabled = true ∧ p.apiServerLB = none) ∧
      p.SetAPIServerPort env port isIPv6
        = ({ p with apiServerPort := Itoa port,
                    apiServerURL := URL.String { u with Host := JoinHostPort u.Hostname (Itoa port) },
                    apiServerEnabled := true }, none)) := by
  unfold proxy.SetAPIServerPort
  by_cases h1 : p.apiServerEnabled = true
  · exact Or.inl ⟨h1, by simp only [h1, if_true]⟩
  · have h1f : p.apiServerEnabled = false := by simpa using h1
    cases hp : Parse p.initialSupervisorURL with
    | error e =>
      exact Or.inr (Or.inl ⟨h1f, e, rfl, by simp only [h1f, Bool.false_eq_true, if_false]⟩)
    | ok u =>
      by_cases h2 : p.lbEnabled = true ∧ p.apiServerLB = none
      · have h2b : p.lbEnabled = true ∧ p.apiServerLB.isNone = true := by simp [h2.1, h2.2]
        cases hnew : env.New p.dataDir .APIServerServiceName
            (URL.String { u with Host := JoinHostPort u.Hostname (Itoa port) })
            (apiServerLBPort p.lbServerPort) isIPv6 with
        | error e =>
          refine Or.inr (Or.inr (Or.inl ⟨h1f, u, e, rfl, h2.1, h2.2, hnew, ?_⟩))
          simp only [h1f, Bool.false_eq_true, h2b, hnew, if_false, if_true, and_self]
        | ok lb =>
          refine Or.inr (Or.inr (Or.inr (Or.inl ⟨h1f, u, lb, rfl, h2.1, h2.2, hnew, ?_⟩)))
          simp only [h1f, Bool.false_eq_true, h2b, hnew, if_false, if_true, and_self]
      · have h2b : ¬ (p.lbEnabled = true ∧ p.apiServerLB.isNone = true) := by
          simpa [Option.isNone_iff_eq_none] using h2
        refine Or.inr (Or.inr (Or.inr (Or.inr ⟨h1f, u, rfl, h2, ?_⟩)))
        simp only [h1f, Bool.false_eq_true, h2b, if_false]

theorem SetAPIServerPort_ok_enabled (env : Env) (p : proxy) (port : Int) (isIPv6 : Bool)
    (h : (p.SetAPIServerPort env port isIPv6).2 = none) :
    (p.SetAPIServerPort env port isIPv6).1.apiServerEnabled = true := by
  unfold proxy.SetAPIServerPort at h ⊢
  split_ifs at h ⊢ with h1
  · simpa using h1
  · cases hp : Parse p.initialSupervisorURL with
    | error e => simp [hp] at h
    | ok u =>
      simp only [hp] at h ⊢
      split_ifs at h ⊢ with h2
      · cases hlb : env.New p.dataDir .APIServerServiceName
            (URL.String { u with Host := JoinHostPort u.Hostname (Itoa port) })
            (apiServerLBPort p.lbServerPort) isIPv6 with
        | error e => simp [hlb] at h
        | ok lb => simp
      · rfl

/-- The supervisor port of every state reached from a construction is the port of the
initial supervisor URL. -/
theorem run_supervisorPort (env : Env) (ctx : Context) (lbEnabled : Bool)
    (dataDir supervisorURL : GoString) (lbServerPort : Int) (isIPv6 : Bool) (p : proxy)
    (u : URL) (calls : List Call)
    (hnew : NewSupervisorProxy env ctx lbEnabled dataDir supervisorURL lbServerPort isIPv6
      = .ok p)
    (hu : Parse supervisorURL = .ok u) :
    (run p calls).supervisorPort = u.Port := by
  obtain ⟨u2, hu2, -, hport, -⟩ :=
    NewSupervisorProxy_fields env ctx lbEnabled dataDir supervisorURL lbServerPort isIPv6 p hnew
  rw [hu] at hu2
  cases hu2
  rw [(run_frame p calls).2.1, hport]

/-! ## Lemmas on non-empty URLs -/

theorem JoinHostPort_ne_nil (host port : GoString) : JoinHostPort host port ≠ [] := by
  have e1 : go "[" = [byte '['] := by decide
  have e3 : go ":" = [byte ':'] := by decide
  unfold JoinHostPort
  split_ifs <;> simp [e1, e3]

theorem ite_append_ne_nil (c : Prop) [Decidable c] (b x : GoString) (h : b ≠ []) :
    (if c then b ++ x else b) ≠ [] := by
  split_ifs <;> simp [h]

theorem URL_String_ne_nil (u : URL) (h : u.Host ≠ []) : u.String ≠ [] := by
  have e1 : go "//" = [byte '/', byte '/'] := by decide
  unfold URL.String
  lift_lets
  intro b7 b6 b5 b4 path b3 b2 b1 b
  have h6 : b6 ≠ [] := by simp [b6, h, e1]
  have h5 : b5 ≠ [] := by
    cases hU : u.User <;> simp [b5, hU, h6]
  have h4 : b4 ≠ [] := by simp [b4, h, h5]
  have h3 : b3 ≠ [] := ite_append_ne_nil _ b4 _ h4
  have h2 : b2 ≠ [] := ite_append_ne_nil _ b3 _ h3
  have h1 : b1 ≠ [] := by
    by_cases ho : u.Opaque = [] <;> simp [b1, ho, h2]
  have h0 : b ≠ [] := by
    have := ite_append_ne_nil (u.ForceQuery = true ∨ u.RawQuery ≠ []) b1 (go "?" ++ u.RawQuery) h1
    simpa [b] using this
  have := ite_append_ne_nil (u.Fragment ≠ []) b (go "#" ++ u.EscapedFragment) h0
  simpa using this

theorem Call_apply_urls_ne_nil (q : proxy) (c : Call) (hc : c.localURLsNonEmpty)
    (hq : q.supervisorURL ≠ [] ∧ q.apiServerURL ≠ []) :
    (Call.apply q c).supervisorURL ≠ [] ∧ (Call.apply q c).apiServerURL ≠ [] := by
  have e1 : go "https://" ≠ [] := by decide
  cases c with
  | Update addresses => exact hq
  | SetHealthCheck address healthCheck =>
    simp only [Call.apply, proxy.SetHealthCheck]
    cases q.apiServerLB <;> exact hq
  | SetSupervisorDefault address =>
    simp only [Call.apply, proxy.SetSupervisorDefault]
    cases SplitHostPort address with
    | error e => exact hq
    | ok hp =>
      cases hlb : q.supervisorLB with
      | none => exact ⟨by simp [e1], hq.2⟩
      | some lb => exact hq
  | SetAPIServerPort env port isIPv6 =>
    simp only [Call.apply]
    unfold proxy.SetAPIServerPort
    by_cases h1 : q.apiServerEnabled = true
    · simp only [h1, if_true]
      exact hq
    · cases hp : Parse q.initialSupervisorURL with
      | error e =>
        simp only [h1, if_false]
        exact hq
      | ok u =>
        by_cases h2 : q.lbEnabled = true ∧ q.apiServerLB.isNone = true
        · cases hnew : env.New q.dataDir .APIServerServiceName
              (URL.String { u with Host := JoinHostPort u.Hostname (Itoa port) })
              (apiServerLBPort q.lbServerPort) isIPv6 with
          | error e =>
            simp only [h1, h2, hnew, if_false, if_true, and_self]
            exact hq
          | ok lb =>
            simp only [h1, h2, hnew, if_false, if_true, and_self]
            exact ⟨hq.1, hc _ _ _ _ _ lb hnew⟩
        · simp only [h1, h2, if_false]
          exact ⟨hq.1, URL_String_ne_nil _ (JoinHostPort_ne_nil _ _)⟩

/-! ## Theorems -/

/-- C1: for every `supervisorURL` that `NewSupervisorProxy` accepts with `lbEnabled = false`,
the new proxy has `SupervisorURL() = APIServerURL() = supervisorURL`, byte for byte. -/
theorem NewSupervisorProxy_direct_urls (env : Env) (ctx : Context)
    (dataDir supervisorURL : GoString) (lbServerPort : Int) (isIPv6 : Bool) (p : proxy)
    (h : NewSupervisorProxy env ctx false dataDir supervisorURL lbServerPort isIPv6 = .ok p) :
    p.SupervisorURL = supervisorURL ∧ p.APIServerURL = supervisorURL := by
  obtain ⟨u, -, rfl⟩ :=
    NewSupervisorProxy_direct env ctx dataDir supervisorURL lbServerPort isIPv6 p h
  exact ⟨rfl, rfl⟩

/-- Witness of C1 at `https://10.0.0.1:6443`. -/
theorem NewSupervisorProxy_direct_urls_witness :
    NewSupervisorProxy failingEnv {} false (go "/var/lib/rancher/k3s/agent")
        (go "https://10.0.0.1:6443") 6444 false = .ok directProxy ∧
      directProxy.SupervisorURL = go "https://10.0.0.1:6443" ∧
      directProxy.APIServerURL = go "https://10.0.0.1:6443" :=
  ⟨rfl, NewSupervisorProxy_direct_urls failingEnv {} (go "/var/lib/rancher/k3s/agent")
    (go "https://10.0.0.1:6443") 6444 false directProxy rfl⟩

/-- C2 as stated fails on the empty list: on the proxy constructed for
`https://10.0.0.1:6443`, on which `SetAPIServerPort` was never called, `Update []` is
followed by `SupervisorAddresses() = ["10.0.0.1:6443"]`, not by the empty list. -/
theorem Update_empty_list_counterexample :
    NewSupervisorProxy failingEnv {} false (go "/var/lib/rancher/k3s/agent")
        (go "https://10.0.0.1:6443") 6444 false = .ok directProxy ∧
      directProxy.apiServerEnabled = false ∧
      (directProxy.Update []).SupervisorAddresses = [go "10.0.0.1:6443"] ∧
      (directProxy.Update []).SupervisorAddresses ≠ [] :=
  ⟨rfl, rfl, by decide, by decide⟩

/-- C2 (amended): on a proxy on which `SetAPIServerPort` has not yet succeeded, `Update xs`
with a non-empty `xs` makes `SupervisorAddresses()` return exactly `xs`; with the empty list
it makes it return the one-element list of the fallback address. -/
theorem Update_before_port_set (p : proxy) (xs : List GoString)
    (h : p.apiServerEnabled = false) :
    (xs ≠ [] → (p.Update xs).SupervisorAddresses = xs) ∧
    (xs = [] → (p.Update xs).SupervisorAddresses = [p.fallbackSupervisorAddress]) := by
  constructor
  · intro hne
    have : 0 < xs.length := List.length_pos.2 hne
    simp [proxy.SupervisorAddresses, proxy.Update, h, this]
  · rintro rfl
    simp [proxy.SupervisorAddresses, proxy.Update, h]

/-- Witness of C2 (amended) on the proxy constructed for `https://10.0.0.1:6443`. -/
theorem Update_before_port_set_witness :
    directProxy.apiServerEnabled = false ∧
    ([go "10.0.0.1:6443", go "10.0.0.2:6443"] ≠ [] →
      (directProxy.Update [go "10.0.0.1:6443", go "10.0.0.2:6443"]).SupervisorAddresses =
        [go "10.0.0.1:6443", go "10.0.0.2:6443"]) :=
  ⟨rfl, (Update_before_port_set directProxy [go "10.0.0.1:6443", go "10.0.0.2:6443"] rfl).1⟩

/-- C3: once `SetAPIServerPort(P, _)` has succeeded on a proxy reached from a successful
construction, every later `Update(xs)` stores, and forwards to the supervisor load balancer
when there is one, a list whose every entry splits into host and port with the port parsed
from the initial supervisor URL, whatever `P` and the ports in `xs` are. -/
theorem Update_after_port_set_ports (env : Env) (ctx : Context) (lbEnabled : Bool)
    (dataDir supervisorURL : GoString) (lbServerPort : Int) (isIPv6 : Bool) (p : proxy)
    (u : URL) (pre : List Call) (env2 : Env) (P : Int) (isIPv6_2 : Bool) (post : List Call)
    (xs : List GoString)
    (hnew : NewSupervisorProxy env ctx lbEnabled dataDir supervisorURL lbServerPort isIPv6
      = .ok p)
    (hu : Parse supervisorURL = .ok u)
    (hset : ((run p pre).SetAPIServerPort env2 P isIPv6_2).2 = none) :
    (∀ e ∈ ((run ((run p pre).SetAPIServerPort env2 P isIPv6_2).1 post).Update xs).supervisorAddresses,
      ∃ host, SplitHostPort e = .ok (host, u.Port)) ∧
    (∀ lb, ((run ((run p pre).SetAPIServerPort env2 P isIPv6_2).1 post).Update xs).supervisorLB
        = some lb →
      ∀ e ∈ lb.servers, ∃ host, SplitHostPort e = .ok (host, u.Port)) := by
  have hcalls : run ((run p pre).SetAPIServerPort env2 P isIPv6_2).1 post
      = run p (pre ++ Call.SetAPIServerPort env2 P isIPv6_2 :: post) := by
    simp [run, Call.apply]
  have hport : (run ((run p pre).SetAPIServerPort env2 P isIPv6_2).1 post).supervisorPort
      = u.Port := by
    rw [hcalls]
    exact run_supervisorPort env ctx lbEnabled dataDir supervisorURL lbServerPort isIPv6 p u _
      hnew hu
  have hen : (run ((run p pre).SetAPIServerPort env2 P isIPv6_2).1 post).apiServerEnabled
      = true :=
    (run_frame _ post).2.2.2.2.2.2.2 (SetAPIServerPort_ok_enabled env2 _ P isIPv6_2 hset)
  have hsep := URL_Port_no_separator u
  have hstored : ∀ e ∈ ((run ((run p pre).SetAPIServerPort env2 P isIPv6_2).1 post).Update
      xs).supervisorAddresses, ∃ host, SplitHostPort e = .ok (host, u.Port) := by
    intro e he
    rw [Update_enabled_supervisorAddresses _ xs hen, hport] at he
    exact rewrittenToPort_entry_splits u.Port xs hsep.1 hsep.2.1 hsep.2.2 e he
  refine ⟨hstored, ?_⟩
  intro lb hlb e he
  rw [Update_supervisorLB_servers _ xs lb hlb] at he
  exact hstored e he

/-- Witness of C3: after `SetAPIServerPort(6444, false)` on the proxy constructed for
`https://10.0.0.1:6443`, the entries stored by `Update` carry port `6443`. -/
theorem Update_after_port_set_ports_witness :
    NewSupervisorProxy failingEnv {} false (go "/var/lib/rancher/k3s/agent")
        (go "https://10.0.0.1:6443") 6444 false = .ok directProxy ∧
      Parse (go "https://10.0.0.1:6443")
        = .ok { Scheme := go "https", Host := go "10.0.0.1:6443" } ∧
      ((run directProxy []).SetAPIServerPort failingEnv 6444 false).2 = none ∧
      ∀ e ∈ ((run ((run directProxy []).SetAPIServerPort failingEnv 6444 false).1 []).Update
          [go "10.0.0.2:6444", go "[fd00::3]:6444"]).supervisorAddresses,
        ∃ host, SplitHostPort e
          = .ok (host, URL.Port { Scheme := go "https", Host := go "10.0.0.1:6443" }) :=
  ⟨rfl, by decide, by decide,
    (Update_after_port_set_ports failingEnv {} false (go "/var/lib/rancher/k3s/agent")
      (go "https://10.0.0.1:6443") 6444 false directProxy
      { Scheme := go "https", Host := go "10.0.0.1:6443" } [] failingEnv 6444 false []
      [go "10.0.0.2:6444", go "[fd00::3]:6444"] rfl (by decide) (by decide)).1⟩

/-- C4: for every list `xs` passed to `Update` after `SetAPIServerPort` has succeeded, the
stored list is the sub-sequence of the entries of `xs` that split into host and port, in
their order, each rewritten to `JoinHostPort host supervisorPort`: it has one entry for each
entry that splits and none for one that does not.  `Update` is total: it cannot fail. -/
theorem Update_after_port_set_rewrites (p : proxy) (xs : List GoString)
    (h : p.apiServerEnabled = true) :
    (p.Update xs).supervisorAddresses
      = (xs.filter splits).map (fun a => JoinHostPort (hostOf a) p.supervisorPort) ∧
    (p.Update xs).supervisorAddresses.length = xs.countP splits ∧
    (∀ a ∈ xs, splits a = true ↔ ∃ host port, SplitHostPort a = .ok (host, port)) := by
  refine ⟨Update_enabled_supervisorAddresses p xs h, ?_, ?_⟩
  · rw [Update_enabled_supervisorAddresses p xs h]
    simp [rewrittenToPort, List.countP_eq_length_filter]
  · intro a _
    cases hs : SplitHostPort a with
    | error e => simp [splits, hs]
    | ok hp =>
      simp only [splits, hs, Except.ok.injEq, true_iff]
      exact ⟨hp.1, hp.2, rfl⟩

/-- Witness of C4: the malformed entry `not-an-address` is dropped and the others keep
their order. -/
theorem Update_after_port_set_rewrites_witness :
    (directProxy.SetAPIServerPort failingEnv 6444 false).1.apiServerEnabled = true ∧
    ((directProxy.SetAPIServerPort failingEnv 6444 false).1.Update
        [go "10.0.0.1:6444", go "not-an-address", go "10.0.0.2:6444"]).supervisorAddresses
      = [go "10.0.0.1:6443", go "10.0.0.2:6443"] :=
  ⟨by decide,
    (Update_after_port_set_rewrites (directProxy.SetAPIServerPort failingEnv 6444 false).1
      [go "10.0.0.1:6444", go "not-an-address", go "10.0.0.2:6444"] (by decide)).1.trans
      (by decide)⟩

/-- C5: `SetAPIServerPort` is idempotent: once a call has succeeded, then after any further
calls a call `SetAPIServerPort(Q, isIPv6)` returns no error and leaves every field of the
proxy unchanged, `APIServerURL()` and the API server port included. -/
theorem SetAPIServerPort_idempotent (env : Env) (p : proxy) (P : Int) (isIPv6 : Bool)
    (calls : List Call) (env2 : Env) (Q : Int) (isIPv6_2 : Bool)
    (hfirst : (p.SetAPIServerPort env P isIPv6).2 = none) :
    (run (p.SetAPIServerPort env P isIPv6).1 calls).SetAPIServerPort env2 Q isIPv6_2
      = (run (p.SetAPIServerPort env P isIPv6).1 calls, none) := by
  have hen : (run (p.SetAPIServerPort env P isIPv6).1 calls).apiServerEnabled = true :=
    (run_frame _ calls).2.2.2.2.2.2.2 (SetAPIServerPort_ok_enabled env p P isIPv6 hfirst)
  generalize run (p.SetAPIServerPort env P isIPv6).1 calls = q at hen ⊢
  simp [proxy.SetAPIServerPort, hen]

/-- Witness of C5: a second call with port `7000` after the call with port `6444`. -/
theorem SetAPIServerPort_idempotent_witness :
    (directProxy.SetAPIServerPort failingEnv 6444 false).2 = none ∧
    (run (directProxy.SetAPIServerPort failingEnv 6444 false).1
        [Call.Update [go "10.0.0.2:6444"]]).SetAPIServerPort loopbackEnv 7000 true
      = (run (directProxy.SetAPIServerPort failingEnv 6444 false).1
          [Call.Update [go "10.0.0.2:6444"]], none) :=
  ⟨by decide, SetAPIServerPort_idempotent failingEnv directProxy 6444 false
    [Call.Update [go "10.0.0.2:6444"]] loopbackEnv 7000 true (by decide)⟩

/-- C6: on a proxy constructed with `lbEnabled = false`, the first `SetAPIServerPort(P, _)`
(after any calls that left the API server port unset) succeeds and makes `APIServerURL()`
the text of the initial supervisor URL with its host replaced by
`JoinHostPort(hostname of the initial URL, decimal text of P)`; `SupervisorURL()` is
unchanged. -/
theorem SetAPIServerPort_direct (env : Env) (ctx : Context) (dataDir supervisorURL : GoString)
    (lbServerPort : Int) (isIPv6 : Bool) (p : proxy) (calls : List Call)
    (env2 : Env) (P : Int) (isIPv6_2 : Bool)
    (hnew : NewSupervisorProxy env ctx false dataDir supervisorURL lbServerPort isIPv6 = .ok p)
    (hunset : (run p calls).apiServerEnabled = false) :
    ∃ u, Parse supervisorURL = .ok u ∧
      ((run p calls).SetAPIServerPort env2 P isIPv6_2).2 = none ∧
      ((run p calls).SetAPIServerPort env2 P isIPv6_2).1.APIServerURL
        = URL.String { u with Host := JoinHostPort u.Hostname (Itoa P) } ∧
      ((run p calls).SetAPIServerPort env2 P isIPv6_2).1.SupervisorURL
        = (run p calls).SupervisorURL := by
  obtain ⟨u, hu, hinit, -, -, -, -, hlb, -⟩ :=
    NewSupervisorProxy_fields env ctx false dataDir supervisorURL lbServerPort isIPv6 p hnew
  have hf := run_frame p calls
  have hurl : Parse (run p calls).initialSupervisorURL = .ok u := by rw [hf.1, hinit, hu]
  have hlb2 : (run p calls).lbEnabled = false := by rw [hf.2.2.1, hlb]
  refine ⟨u, hu, ?_, ?_, ?_⟩ <;>
    simp [proxy.SetAPIServerPort, hunset, hurl, hlb2, proxy.APIServerURL, proxy.SupervisorURL]

/-- Witness of C6: `https://10.0.0.1:6443` with port `6444` gives `https://10.0.0.1:6444`. -/
theorem SetAPIServerPort_direct_witness :
    (NewSupervisorProxy failingEnv {} false (go "/var/lib/rancher/k3s/agent")
        (go "https://10.0.0.1:6443") 6444 false = .ok directProxy ∧
      (run directProxy []).apiServerEnabled = false) ∧
    (∃ u, Parse (go "https://10.0.0.1:6443") = .ok u ∧
      ((run directProxy []).SetAPIServerPort failingEnv 6444 false).2 = none ∧
      ((run directProxy []).SetAPIServerPort failingEnv 6444 false).1.APIServerURL
        = URL.String { u with Host := JoinHostPort u.Hostname (Itoa 6444) } ∧
      ((run directProxy []).SetAPIServerPort failingEnv 6444 false).1.SupervisorURL
        = (run directProxy []).SupervisorURL) ∧
    ((run directProxy []).SetAPIServerPort failingEnv 6444 false).1.APIServerURL
      = go "https://10.0.0.1:6444" :=
  ⟨⟨rfl, rfl⟩,
    SetAPIServerPort_direct failingEnv {} (go "/var/lib/rancher/k3s/agent")
      (go "https://10.0.0.1:6443") 6444 false directProxy [] failingEnv 6444 false rfl rfl,
    by decide⟩

/-- C7: in every proxy state, also after any sequence of `Update`, `SetAPIServerPort`,
`SetSupervisorDefault` and `SetHealthCheck` calls, `SupervisorAddresses()` returns the stored
address list when that list is non-empty and otherwise the one-element list of the fallback
address; so it is never empty. -/
theorem SupervisorAddresses_never_empty (p : proxy) (calls : List Call) :
    ((run p calls).supervisorAddresses ≠ [] →
      (run p calls).SupervisorAddresses = (run p calls).supervisorAddresses) ∧
    ((run p calls).supervisorAddresses = [] →
      (run p calls).SupervisorAddresses = [(run p calls).fallbackSupervisorAddress]) ∧
    (run p calls).SupervisorAddresses ≠ [] := by
  generalize run p calls = q
  cases h : q.supervisorAddresses with
  | nil => simp [proxy.SupervisorAddresses, h]
  | cons a as => simp [proxy.SupervisorAddresses, h]

/-- C9 as stated fails: `NewSupervisorProxy` accepts the empty supervisor URL without load
balancing (`url.Parse` parses the empty string), and both `SupervisorURL()` and
`APIServerURL()` of the new proxy are the empty string. -/
theorem empty_URL_counterexample :
    NewSupervisorProxy failingEnv {} false [] [] 0 false = .ok emptyProxy ∧
      emptyProxy.SupervisorURL = [] ∧ emptyProxy.APIServerURL = [] :=
  ⟨rfl, rfl, rfl⟩

/-- C9 (amended): once `NewSupervisorProxy` has returned successfully, on a non-empty
`supervisorURL` when `lbEnabled = false`, `SupervisorURL()` and `APIServerURL()` never return
the empty string, after every sequence of `Update`, `SetAPIServerPort`,
`SetSupervisorDefault` and `SetHealthCheck` calls, the load balancers started on the way
reporting a non-empty local URL. -/
theorem URLs_never_empty (env : Env) (ctx : Context) (lbEnabled : Bool)
    (dataDir supervisorURL : GoString) (lbServerPort : Int) (isIPv6 : Bool) (p : proxy)
    (calls : List Call)
    (hnew : NewSupervisorProxy env ctx lbEnabled dataDir supervisorURL lbServerPort isIPv6
      = .ok p)
    (hne : lbEnabled = false → supervisorURL ≠ [])
    (henv : env.localURLsNonEmpty)
    (hcalls : ∀ c ∈ calls, c.localURLsNonEmpty) :
    (run p calls).SupervisorURL ≠ [] ∧ (run p calls).APIServerURL ≠ [] := by
  have hinit : p.supervisorURL ≠ [] ∧ p.apiServerURL ≠ [] := by
    cases lbEnabled with
    | false =>
      obtain ⟨u, -, rfl⟩ :=
        NewSupervisorProxy_direct env ctx dataDir supervisorURL lbServerPort isIPv6 p hnew
      exact ⟨hne rfl, hne rfl⟩
    | true =>
      obtain ⟨u, lb, -, hlb, rfl⟩ :=
        NewSupervisorProxy_balanced env ctx dataDir supervisorURL lbServerPort isIPv6 p hnew
      exact ⟨henv _ _ _ _ _ lb hlb, henv _ _ _ _ _ lb hlb⟩
  clear hnew
  induction calls generalizing p with
  | nil => exact hinit
  | cons c calls ih =>
    rw [run_cons]
    exact ih _ (fun c2 hc2 => hcalls c2 (List.mem_cons_of_mem _ hc2))
      (Call_apply_urls_ne_nil p c (hcalls c (List.mem_cons_self _ _)) hinit)

/-- Witness of C9 (amended) on the proxy constructed for `https://10.0.0.1:6443`, followed by
`SetSupervisorDefault`, `SetAPIServerPort` and `Update`. -/
theorem URLs_never_empty_witness :
    (NewSupervisorProxy failingEnv {} false (go "/var/lib/rancher/k3s/agent")
        (go "https://10.0.0.1:6443") 6444 false = .ok directProxy ∧
      (false = false → go "https://10.0.0.1:6443" ≠ [])) ∧
    (run directProxy [Call.SetSupervisorDefault (go "10.0.0.2:6443"),
        Call.SetAPIServerPort failingEnv 6444 false,
        Call.Update [go "10.0.0.3:6444"]]).SupervisorURL ≠ [] ∧
    (run directProxy [Call.SetSupervisorDefault (go "10.0.0.2:6443"),
        Call.SetAPIServerPort failingEnv 6444 false,
        Call.Update [go "10.0.0.3:6444"]]).APIServerURL ≠ [] :=
  ⟨⟨rfl, fun _ => by decide⟩,
    URLs_never_empty failingEnv {} false (go "/var/lib/rancher/k3s/agent")
      (go "https://10.0.0.1:6443") 6444 false directProxy
      [Call.SetSupervisorDefault (go "10.0.0.2:6443"),
        Call.SetAPIServerPort failingEnv 6444 false,
        Call.Update [go "10.0.0.3:6444"]]
      rfl (fun _ => by decide)
      (fun _ _ _ _ _ _ h => nomatch h)
      (by
        intro c hc
        simp only [List.mem_cons, List.mem_singleton, List.not_mem_nil, or_false] at hc
        rcases hc with rfl | rfl | rfl
        · trivial
        · exact fun _ _ _ _ _ _ h => nomatch h
        · trivial)⟩

/-- C10 as stated fails: on the proxy constructed for `https://10.0.0.1:6443` with load
balancing, a `SetAPIServerPort(6445, false)` whose load balancer cannot be started returns
the error and leaves `apiServerPort` set to `6445`, while it was empty before the call. -/
theorem SetAPIServerPort_error_counterexample :
    NewSupervisorProxy loopbackEnv {} true (go "/var/lib/rancher/k3s/agent")
        (go "https://10.0.0.1:6443") 6444 false = .ok balancedProxy ∧
      (balancedProxy.SetAPIServerPort failingEnv 6445 false).2
        = some "listen: address already in use" ∧
      balancedProxy.apiServerPort = [] ∧
      (balancedProxy.SetAPIServerPort failingEnv 6445 false).1.apiServerPort = go "6445" ∧
      (balancedProxy.SetAPIServerPort failingEnv 6445 false).1.apiServerPort
        ≠ balancedProxy.apiServerPort :=
  ⟨rfl, by decide, rfl, by decide, by decide⟩

/-- C10 (amended): if `SetAPIServerPort` returns an error, every field of the proxy other
than `apiServerPort` (among them `apiServerURL`, `apiServerEnabled` and `apiServerLB`) has
its value from before the call; and when the error is the failure to parse the initial
supervisor URL, `apiServerPort` is unchanged as well. -/
theorem SetAPIServerPort_error_frame (env : Env) (p : proxy) (port : Int) (isIPv6 : Bool)
    (err : error) (herr : (p.SetAPIServerPort env port isIPv6).2 = some err) :
    (p.SetAPIServerPort env port isIPv6).1
      = { p with apiServerPort := (p.SetAPIServerPort env port isIPv6).1.apiServerPort } ∧
    (∀ e, Parse p.initialSupervisorURL = .error e →
      (p.SetAPIServerPort env port isIPv6).1 = p) := by
  rcases SetAPIServerPort_cases env p port isIPv6 with
    ⟨-, h⟩ | ⟨-, e, hp, h⟩ | ⟨-, u, e, hp, -, -, -, h⟩ | ⟨-, u, lb, -, -, -, -, h⟩ | ⟨-, u, -, -, h⟩
  · simp [h] at herr
  · simp [h]
  · simp [h, hp]
  · simp [h] at herr
  · simp [h] at herr

/-- Witness of C10 (amended): the failed call of the counterexample changes no field but
`apiServerPort`. -/
theorem SetAPIServerPort_error_frame_witness :
    (balancedProxy.SetAPIServerPort failingEnv 6445 false).2
        = some "listen: address already in use" ∧
      (balancedProxy.SetAPIServerPort failingEnv 6445 false).1
        = { balancedProxy with
            apiServerPort :=
              (balancedProxy.SetAPIServerPort failingEnv 6445 false).1.apiServerPort } :=
  ⟨by decide,
    (SetAPIServerPort_error_frame failingEnv balancedProxy 6445 false
      "listen: address already in use" (by decide)).1⟩

/-- C11: when `SetAPIServerPort` constructs the API server load balancer (the port is not
yet set, the initial URL parses, load balancing is on and no API server load balancer
exists), the local port it passes to `loadbalancer.New` is `lbServerPort - 1` if
`lbServerPort` is non-zero and `0` if it is `0`; for `lbServerPort >= 0` that port is not
negative and differs from a non-zero `lbServerPort`. -/
theorem SetAPIServerPort_requested_port (env : Env) (p : proxy) (port : Int) (isIPv6 : Bool)
    (u : URL)
    (hunset : p.apiServerEnabled = false) (hu : Parse p.initialSupervisorURL = .ok u)
    (hlb : p.lbEnabled = true) (hnone : p.apiServerLB = none)
    (hlo : -2 ^ 63 < p.lbServerPort) (hhi : p.lbServerPort < 2 ^ 63) :
    p.SetAPIServerPort env port isIPv6
      = (match env.New p.dataDir .APIServerServiceName
            (URL.String { u with Host := JoinHostPort u.Hostname (Itoa port) })
            (if p.lbServerPort = 0 then 0 else p.lbServerPort - 1) isIPv6 with
        | .error err => ({ p with apiServerPort := Itoa port }, some err)
        | .ok lb =>
          ({ p with apiServerPort := Itoa port, apiServerLB := some lb,
                    apiServerURL := lb.LocalURL, apiServerEnabled := true }, none)) ∧
    (0 ≤ p.lbServerPort →
      0 ≤ (if p.lbServerPort = 0 then 0 else p.lbServerPort - 1) ∧
      (p.lbServerPort ≠ 0 →
        (if p.lbServerPort = 0 then 0 else p.lbServerPort - 1) ≠ p.lbServerPort)) := by
  have hport : apiServerLBPort p.lbServerPort
      = if p.lbServerPort = 0 then 0 else p.lbServerPort - 1 := by
    unfold apiServerLBPort wrapInt
    by_cases h0 : p.lbServerPort = 0
    · simp [h0]
    · simp only [h0, ne_eq, not_false_eq_true, if_true, if_false]
      omega
  constructor
  · rcases SetAPIServerPort_cases env p port isIPv6 with
      ⟨h, -⟩ | ⟨-, e, hp, -⟩ | ⟨-, u2, e, hp, -, -, hnew, h⟩ | ⟨-, u2, lb, hp, -, -, hnew, h⟩ |
      ⟨-, u2, -, hno, -⟩
    · rw [hunset] at h
      cases h
    · rw [hu] at hp
      cases hp
    · rw [hu] at hp
      cases hp
      rw [hport] at hnew
      rw [h, hnew]
    · rw [hu] at hp
      cases hp
      rw [hport] at hnew
      rw [h, hnew]
    · exact absurd ⟨hlb, hnone⟩ hno
  · intro h0
    by_cases hz : p.lbServerPort = 0
    · simp [hz]
    · simp only [hz, if_false]
      omega

/-- Witness of C11: with `lbServerPort = 6444` the API server load balancer is asked for
port `6443`, which `loopbackEnv` shows in the local URL. -/
theorem SetAPIServerPort_requested_port_witness :
    (balancedProxy.apiServerEnabled = false ∧
      Parse balancedProxy.initialSupervisorURL
        = .ok { Scheme := go "https", Host := go "10.0.0.1:6443" } ∧
      balancedProxy.lbEnabled = true ∧ balancedProxy.apiServerLB = none ∧
      -2 ^ 63 < balancedProxy.lbServerPort ∧ balancedProxy.lbServerPort < 2 ^ 63) ∧
    (0 ≤ balancedProxy.lbServerPort →
      0 ≤ (if balancedProxy.lbServerPort = 0 then 0 else balancedProxy.lbServerPort - 1) ∧
      (balancedProxy.lbServerPort ≠ 0 →
        (if balancedProxy.lbServerPort = 0 then 0 else balancedProxy.lbServerPort - 1)
          ≠ balancedProxy.lbServerPort)) ∧
    (balancedProxy.SetAPIServerPort loopbackEnv 6444 false).1.APIServerURL
      = go "https://127.0.0.1:6443" :=
  ⟨⟨rfl, by decide, rfl, rfl, by decide, by decide⟩,
    (SetAPIServerPort_requested_port loopbackEnv balancedProxy 6444 false
      { Scheme := go "https", Host := go "10.0.0.1:6443" } rfl (by decide) rfl rfl
      (by decide) (by decide)).2,
    by decide⟩

/-- C12: for every proxy state and every address that does not split into host and port,
`SetSupervisorDefault` returns the proxy unchanged: the fallback address, `SupervisorURL()`,
`SupervisorAddresses()`, every other field and the supervisor load balancer (to which no
default is forwarded) are as before. -/
theorem SetSupervisorDefault_unparseable (p : proxy) (address : GoString) (err : error)
    (h : SplitHostPort address = .error err) :
    p.SetSupervisorDefault address = p ∧
    (p.SetSupervisorDefault address).SupervisorURL = p.SupervisorURL ∧
    (p.SetSupervisorDefault address).SupervisorAddresses = p.SupervisorAddresses ∧
    (p.SetSupervisorDefault address).supervisorLB = p.supervisorLB := by
  have : p.SetSupervisorDefault address = p := by simp [proxy.SetSupervisorDefault, h]
  rw [this]
  exact ⟨rfl, rfl, rfl, rfl⟩

/-- Witness of C12 on the proxy with load balancing, with the address `not-an-address`. -/
theorem SetSupervisorDefault_unparseable_witness :
    SplitHostPort (go "not-an-address") = .error "missing port in address" ∧
    balancedProxy.SetSupervisorDefault (go "not-an-address") = balancedProxy :=
  ⟨by decide,
    (SetSupervisorDefault_unparseable balancedProxy (go "not-an-address")
      "missing port in address" (by decide)).1⟩

/-- C13: for every address that splits into `(host, port)`, `SetSupervisorDefault` sets the
fallback supervisor address to `JoinHostPort host supervisorPort` when the API server is
enabled and to the address as given when it is not; with no dynamic list stored,
`SupervisorAddresses()` then returns that single address. -/
theorem SetSupervisorDefault_fallback (p : proxy) (address host port : GoString)
    (h : SplitHostPort address = .ok (host, port)) :
    (p.apiServerEnabled = true →
      (p.SetSupervisorDefault address).fallbackSupervisorAddress
        = JoinHostPort host p.supervisorPort) ∧
    (p.apiServerEnabled = false →
      (p.SetSupervisorDefault address).fallbackSupervisorAddress = address) ∧
    (p.supervisorAddresses = [] →
      (p.SetSupervisorDefault address).SupervisorAddresses
        = [(p.SetSupervisorDefault address).fallbackSupervisorAddress]) := by
  refine ⟨?_, ?_, ?_⟩
  · intro hen
    cases hlb : p.supervisorLB <;> simp [proxy.SetSupervisorDefault, h, hen, hlb]
  · intro hen
    cases hlb : p.supervisorLB <;> simp [proxy.SetSupervisorDefault, h, hen, hlb]
  · intro hempty
    cases hlb : p.supervisorLB <;>
      simp [proxy.SetSupervisorDefault, proxy.SupervisorAddresses, h, hlb, hempty]

/-- Witness of C13: after `SetAPIServerPort`, the default `10.0.0.9:6444` becomes the
fallback `10.0.0.9:6443`. -/
theorem SetSupervisorDefault_fallback_witness :
    SplitHostPort (go "10.0.0.9:6444") = .ok (go "10.0.0.9", go "6444") ∧
    ((directProxy.SetAPIServerPort failingEnv 6444 false).1.apiServerEnabled = true →
      ((directProxy.SetAPIServerPort failingEnv 6444 false).1.SetSupervisorDefault
          (go "10.0.0.9:6444")).fallbackSupervisorAddress
        = JoinHostPort (go "10.0.0.9")
            (directProxy.SetAPIServerPort failingEnv 6444 false).1.supervisorPort) ∧
    ((directProxy.SetAPIServerPort failingEnv 6444 false).1.SetSupervisorDefault
        (go "10.0.0.9:6444")).SupervisorAddresses = [go "10.0.0.9:6443"] :=
  ⟨by decide,
    (SetSupervisorDefault_fallback (directProxy.SetAPIServerPort failingEnv 6444 false).1
      (go "10.0.0.9:6444") (go "10.0.0.9") (go "6444") (by decide)).1,
    by decide⟩

/-- C14: for every address that splits, `SetSupervisorDefault` on a proxy without a
supervisor load balancer makes `SupervisorURL()` equal to `https://` followed by the new
fallback address; on a proxy with a supervisor load balancer it leaves `SupervisorURL()`
unchanged and passes the new fallback address to the load balancer's `SetDefault`. -/
theorem SetSupervisorDefault_url (p : proxy) (address host port : GoString)
    (h : SplitHostPort address = .ok (host, port)) :
    (p.supervisorLB = none →
      (p.SetSupervisorDefault address).SupervisorURL
        = go "https://" ++ (p.SetSupervisorDefault address).fallbackSupervisorAddress ∧
      (p.SetSupervisorDefault address).supervisorLB = none) ∧
    (∀ lb, p.supervisorLB = some lb →
      (p.SetSupervisorDefault address).SupervisorURL = p.SupervisorURL ∧
      (p.SetSupervisorDefault address).supervisorLB
        = some (lb.SetDefault (p.SetSupervisorDefault address).fallbackSupervisorAddress) ∧
      ∃ lb2, (p.SetSupervisorDefault address).supervisorLB = some lb2 ∧
        lb2.defaultAddress = some (p.SetSupervisorDefault address).fallbackSupervisorAddress) := by
  constructor
  · intro hlb
    simp [proxy.SetSupervisorDefault, proxy.SupervisorURL, h, hlb]
  · intro lb hlb
    simp [proxy.SetSupervisorDefault, proxy.SupervisorURL, LoadBalancer.SetDefault, h, hlb]

/-- Witness of C14 without load balancing: the default `10.0.0.9:6443` makes the supervisor
URL `https://10.0.0.9:6443`. -/
theorem SetSupervisorDefault_url_witness :
    SplitHostPort (go "10.0.0.9:6443") = .ok (go "10.0.0.9", go "6443") ∧
    (directProxy.supervisorLB = none →
      (directProxy.SetSupervisorDefault (go "10.0.0.9:6443")).SupervisorURL
        = go "https://"
          ++ (directProxy.SetSupervisorDefault (go "10.0.0.9:6443")).fallbackSupervisorAddress ∧
      (directProxy.SetSupervisorDefault (go "10.0.0.9:6443")).supervisorLB = none) ∧
    (directProxy.SetSupervisorDefault (go "10.0.0.9:6443")).SupervisorURL
      = go "https://10.0.0.9:6443" :=
  ⟨by decide,
    (SetSupervisorDefault_url directProxy (go "10.0.0.9:6443") (go "10.0.0.9") (go "6443")
      (by decide)).1,
    by decide⟩

/-- C17: `Update` changes the stored supervisor address list and nothing else of the proxy:
`SupervisorURL()`, `APIServerURL()`, the fallback address, both port fields,
`apiServerEnabled` and every other field are as before, and the load balancer handles are the
same load balancers (present or absent as before, with their local URL, default and health
checks), which have received the membership. -/
theorem Update_frame_fields (p : proxy) (addresses : List GoString) :
    p.Update addresses
      = { p with
          supervisorAddresses := (p.Update addresses).supervisorAddresses
          apiServerLB := p.apiServerLB.map fun lb => { lb with servers := addresses }
          supervisorLB := p.supervisorLB.map fun lb =>
            { lb with servers := (p.Update addresses).supervisorAddresses } } ∧
    (p.Update addresses).SupervisorURL = p.SupervisorURL ∧
    (p.Update addresses).APIServerURL = p.APIServerURL ∧
    (p.Update addresses).fallbackSupervisorAddress = p.fallbackSupervisorAddress ∧
    (p.Update addresses).apiServerPort = p.apiServerPort ∧
    (p.Update addresses).supervisorPort = p.supervisorPort ∧
    (p.Update addresses).apiServerEnabled = p.apiServerEnabled ∧
    (p.Update addresses).IsSupervisorLBEnabled = p.IsSupervisorLBEnabled ∧
    (p.Update addresses).IsAPIServerLBEnabled = p.IsAPIServerLBEnabled := by
  refine ⟨rfl, rfl, rfl, rfl, rfl, rfl, rfl, ?_, ?_⟩
  · simp [proxy.Update, proxy.IsSupervisorLBEnabled]
  · simp [proxy.Update, proxy.IsAPIServerLBEnabled]

/-- C20: for every address and health-check function, `SetHealthCheck` registers the check on
the supervisor load balancer, if present, under the address as given, and on the API server
load balancer, if present, under `JoinHostPort host apiServerPort`, where `host` is the host
part of the address, empty when the address does not split; an absent load balancer stays
absent and no other field of the proxy changes. -/
theorem SetHealthCheck_registers (p : proxy) (address : GoString)
    (healthCheck : HealthCheckFunc) :
    p.SetHealthCheck address healthCheck
      = { p with
          supervisorLB := p.supervisorLB.map fun lb =>
            { lb with healthChecks := (address, healthCheck) :: lb.healthChecks }
          apiServerLB := p.apiServerLB.map fun lb =>
            { lb with
              healthChecks :=
                (JoinHostPort (hostOf address) p.apiServerPort, healthCheck)
                  :: lb.healthChecks } } ∧
    (∀ host port, SplitHostPort address = .ok (host, port) → hostOf address = host) ∧
    (∀ err, SplitHostPort address = .error err → hostOf address = []) := by
  refine ⟨?_, ?_, ?_⟩
  · unfold proxy.SetHealthCheck
    cases hlb : p.apiServerLB with
    | none => simp [LoadBalancer.SetHealthCheck]
    | some lb =>
      cases hs : SplitHostPort address with
      | error e => simp [LoadBalancer.SetHealthCheck, hostOf, hs]
      | ok hp => simp [LoadBalancer.SetHealthCheck, hostOf, hs]
  · intro host port hs
    simp [hostOf, hs]
  · intro err hs
    simp [hostOf, hs]

/-! ## Invariants of the two kinds of proxy -/

theorem NewSupervisorProxy_Balanced (env : Env) (ctx : Context)
    (dataDir supervisorURL : GoString) (lbServerPort : Int) (isIPv6 : Bool) (p : proxy)
    (h : NewSupervisorProxy env ctx true dataDir supervisorURL lbServerPort isIPv6 = .ok p) :
    Balanced p := by
  obtain ⟨u, lb, -, -, rfl⟩ :=
    NewSupervisorProxy_balanced env ctx dataDir supervisorURL lbServerPort isIPv6 p h
  exact ⟨rfl, lb, rfl, rfl, Or.inr ⟨rfl, rfl, rfl⟩⟩

theorem NewSupervisorProxy_Direct (env : Env) (ctx : Context)
    (dataDir supervisorURL : GoString) (lbServerPort : Int) (isIPv6 : Bool) (p : proxy)
    (h : NewSupervisorProxy env ctx false dataDir supervisorURL lbServerPort isIPv6 = .ok p) :
    Direct p := by
  obtain ⟨u, -, rfl⟩ :=
    NewSupervisorProxy_direct env ctx dataDir supervisorURL lbServerPort isIPv6 p h
  exact ⟨rfl, rfl, rfl, fun _ => rfl⟩

theorem Call_apply_Balanced (q : proxy) (c : Call) (h : Balanced q) :
    Balanced (Call.apply q c) := by
  obtain ⟨hlb, slb, hs, hurl, hapi⟩ := h
  cases c with
  | Update addresses =>
    refine ⟨hlb, slb.Update (if q.apiServerEnabled then q.setSupervisorPort addresses
      else addresses), by simp [Call.apply, proxy.Update, hs], hurl, ?_⟩
    rcases hapi with ⟨alb, ha, he, hu⟩ | ⟨ha, he, hu⟩
    · exact Or.inl ⟨alb.Update addresses, by simp [Call.apply, proxy.Update, ha], he, hu⟩
    · exact Or.inr ⟨by simp [Call.apply, proxy.Update, ha], he, hu⟩
  | SetHealthCheck address healthCheck =>
    rcases hapi with ⟨alb, ha, he, hu⟩ | ⟨ha, he, hu⟩
    · refine ⟨?_, slb.SetHealthCheck address healthCheck, ?_, ?_,
        Or.inl ⟨alb.SetHealthCheck (JoinHostPort (hostOf address) q.apiServerPort) healthCheck,
          ?_, ?_, ?_⟩⟩ <;>
        simp [Call.apply, proxy.SetHealthCheck, ha, hs, hlb, he, hu, hurl, hostOf,
          LoadBalancer.SetHealthCheck, LoadBalancer.LocalURL]
    · refine ⟨?_, slb.SetHealthCheck address healthCheck, ?_, ?_, Or.inr ⟨?_, ?_, ?_⟩⟩ <;>
        simp [Call.apply, proxy.SetHealthCheck, ha, hs, hlb, he, hu, hurl,
          LoadBalancer.SetHealthCheck, LoadBalancer.LocalURL]
  | SetSupervisorDefault address =>
    cases hsp : SplitHostPort address with
    | error e =>
      have : Call.apply q (Call.SetSupervisorDefault address) = q := by
        simp [Call.apply, proxy.SetSupervisorDefault, hsp]
      rw [this]
      exact ⟨hlb, slb, hs, hurl, hapi⟩
    | ok hp =>
      refine ⟨?_, slb.SetDefault (if q.apiServerEnabled then JoinHostPort hp.1 q.supervisorPort
        else address), ?_, ?_, ?_⟩
      · simp [Call.apply, proxy.SetSupervisorDefault, hsp, hs, hlb]
      · simp [Call.apply, proxy.SetSupervisorDefault, hsp, hs]
      · simpa [Call.apply, proxy.SetSupervisorDefault, hsp, hs, LoadBalancer.SetDefault,
          LoadBalancer.LocalURL] using hurl
      · rcases hapi with ⟨alb, ha, he, hu⟩ | ⟨ha, he, hu⟩
        · refine Or.inl ⟨alb, ?_, ?_, ?_⟩ <;>
            simp [Call.apply, proxy.SetSupervisorDefault, hsp, hs, ha, he, hu]
        · refine Or.inr ⟨?_, ?_, ?_⟩ <;>
            simp [Call.apply, proxy.SetSupervisorDefault, hsp, hs, ha, he, hu,
              LoadBalancer.SetDefault, LoadBalancer.LocalURL]
  | SetAPIServerPort env port isIPv6 =>
    simp only [Call.apply]
    rcases SetAPIServerPort_cases env q port isIPv6 with
      ⟨-, h⟩ | ⟨-, e, -, h⟩ | ⟨hen, u, e, -, -, hno, -, h⟩ | ⟨hen, u, lb, -, -, hno, -, h⟩ |
      ⟨hen, u, -, hcontra, -⟩
    · rw [h]
      exact ⟨hlb, slb, hs, hurl, hapi⟩
    · rw [h]
      exact ⟨hlb, slb, hs, hurl, hapi⟩
    · rw [h]
      rcases hapi with ⟨alb, ha, he, hu⟩ | ⟨ha, he, hu⟩
      · rw [hen] at he
        cases he
      · exact ⟨hlb, slb, hs, hurl, Or.inr ⟨ha, he, hu⟩⟩
    · rw [h]
      exact ⟨hlb, slb, hs, hurl, Or.inl ⟨lb, rfl, rfl, rfl⟩⟩
    · rcases hapi with ⟨alb, ha, he, hu⟩ | ⟨ha, he, hu⟩
      · rw [hen] at he
        cases he
      · exact absurd ⟨hlb, ha⟩ hcontra

theorem Call_apply_Direct (q : proxy) (c : Call) (h : Direct q) :
    Direct (Call.apply q c) := by
  obtain ⟨hlb, hs, ha, hurl⟩ := h
  cases c with
  | Update addresses =>
    exact ⟨hlb, by simp [Call.apply, proxy.Update, hs], by simp [Call.apply, proxy.Update, ha],
      hurl⟩
  | SetHealthCheck address healthCheck =>
    refine ⟨?_, ?_, ?_, ?_⟩ <;> simp [Call.apply, proxy.SetHealthCheck, ha, hs, hlb]
    exact hurl
  | SetSupervisorDefault address =>
    cases hsp : SplitHostPort address with
    | error e =>
      have : Call.apply q (Call.SetSupervisorDefault address) = q := by
        simp [Call.apply, proxy.SetSupervisorDefault, hsp]
      rw [this]
      exact ⟨hlb, hs, ha, hurl⟩
    | ok hp =>
      refine ⟨?_, ?_, ?_, ?_⟩ <;>
        simp [Call.apply, proxy.SetSupervisorDefault, hsp, hs, ha, hlb]
      exact hurl
  | SetAPIServerPort env port isIPv6 =>
    simp only [Call.apply]
    rcases SetAPIServerPort_cases env q port isIPv6 with
      ⟨-, h⟩ | ⟨-, e, -, h⟩ | ⟨-, u, e, -, hl, -, -, -⟩ | ⟨-, u, lb, -, hl, -, -, -⟩ |
      ⟨-, u, -, -, h⟩
    · rw [h]
      exact ⟨hlb, hs, ha, hurl⟩
    · rw [h]
      exact ⟨hlb, hs, ha, hurl⟩
    · rw [hlb] at hl
      cases hl
    · rw [hlb] at hl
      cases hl
    · rw [h]
      exact ⟨hlb, hs, ha, fun hf => by cases hf⟩

/-- Every state reached from a construction with load balancing has the shape `Balanced`. -/
theorem run_Balanced (env : Env) (ctx : Context) (dataDir supervisorURL : GoString)
    (lbServerPort : Int) (isIPv6 : Bool) (p : proxy) (calls : List Call)
    (h : NewSupervisorProxy env ctx true dataDir supervisorURL lbServerPort isIPv6 = .ok p) :
    Balanced (run p calls) :=
  run_invariant Balanced Call_apply_Balanced p calls
    (NewSupervisorProxy_Balanced env ctx dataDir supervisorURL lbServerPort isIPv6 p h)

/-- Every state reached from a construction without load balancing has the shape `Direct`. -/
theorem run_Direct (env : Env) (ctx : Context) (dataDir supervisorURL : GoString)
    (lbServerPort : Int) (isIPv6 : Bool) (p : proxy) (calls : List Call)
    (h : NewSupervisorProxy env ctx false dataDir supervisorURL lbServerPort isIPv6 = .ok p) :
    Direct (run p calls) :=
  run_invariant Direct Call_apply_Direct p calls
    (NewSupervisorProxy_Direct env ctx dataDir supervisorURL lbServerPort isIPv6 p h)

theorem Call_apply_supervisorURL (q : proxy) (c : Call) (h : c.setsDefault = false) :
    (Call.apply q c).supervisorURL = q.supervisorURL := by
  cases c with
  | Update addresses => rfl
  | SetHealthCheck address healthCheck =>
    simp only [Call.apply, proxy.SetHealthCheck]
    cases q.apiServerLB <;> rfl
  | SetSupervisorDefault address =>
    cases hsp : SplitHostPort address with
    | error e => simp [Call.apply, proxy.SetSupervisorDefault, hsp]
    | ok hp => simp [Call.setsDefault, splits, hsp] at h
  | SetAPIServerPort env port isIPv6 =>
    simp only [Call.apply]
    rcases SetAPIServerPort_cases env q port isIPv6 with
      ⟨-, h⟩ | ⟨-, e, -, h⟩ | ⟨-, u, e, -, -, -, -, h⟩ | ⟨-, u, lb, -, -, -, -, h⟩ |
      ⟨-, u, -, -, h⟩ <;> rw [h]

theorem run_supervisorURL (q : proxy) (calls : List Call)
    (h : calls.any Call.setsDefault = false) :
    (run q calls).supervisorURL = q.supervisorURL := by
  induction calls generalizing q with
  | nil => rfl
  | cons c calls ih =>
    simp only [List.any_cons, Bool.or_eq_false_iff] at h
    rw [run_cons, ih _ h.2, Call_apply_supervisorURL q c h.1]

/-- C15: in every state reached from a successful `NewSupervisorProxy` with
`lbEnabled = true`, `SupervisorURL()` is the local URL of the supervisor load balancer, and
`APIServerURL()` is the local URL of the API server load balancer if that exists and of the
supervisor load balancer otherwise; the branch of `SetAPIServerPort` that stores a direct
backend URL is never taken (whenever the port is not yet set, load balancing is on and no
API server load balancer exists). -/
theorem balanced_URLs_are_local (env : Env) (ctx : Context) (dataDir supervisorURL : GoString)
    (lbServerPort : Int) (isIPv6 : Bool) (p : proxy) (calls : List Call)
    (hnew : NewSupervisorProxy env ctx true dataDir supervisorURL lbServerPort isIPv6 = .ok p) :
    (∃ slb, (run p calls).supervisorLB = some slb ∧
      (run p calls).SupervisorURL = slb.LocalURL ∧
      (∀ alb, (run p calls).apiServerLB = some alb →
        (run p calls).APIServerURL = alb.LocalURL) ∧
      ((run p calls).apiServerLB = none → (run p calls).APIServerURL = slb.LocalURL)) ∧
    ¬ ((run p calls).apiServerEnabled = false ∧
        ¬ ((run p calls).lbEnabled = true ∧ (run p calls).apiServerLB = none)) := by
  obtain ⟨hlb, slb, hs, hurl, hapi⟩ :=
    run_Balanced env ctx dataDir supervisorURL lbServerPort isIPv6 p calls hnew
  refine ⟨⟨slb, hs, hurl, ?_, ?_⟩, ?_⟩
  · intro alb halb
    rcases hapi with ⟨alb2, ha, -, hu⟩ | ⟨ha, -, -⟩
    · rw [ha] at halb
      cases halb
      exact hu
    · rw [ha] at halb
      cases halb
  · intro hnone
    rcases hapi with ⟨alb2, ha, -, -⟩ | ⟨-, -, hu⟩
    · rw [ha] at hnone
      cases hnone
    · exact hu
  · rintro ⟨hen, hno⟩
    rcases hapi with ⟨alb2, -, he, -⟩ | ⟨ha, -, -⟩
    · rw [hen] at he
      cases he
    · exact hno ⟨hlb, ha⟩

/-- Witness of C15: with load balancers on ports 6444 and 6443, also after
`SetSupervisorDefault`, `SetAPIServerPort` and `Update`. -/
theorem balanced_URLs_are_local_witness :
    NewSupervisorProxy loopbackEnv {} true (go "/var/lib/rancher/k3s/agent")
        (go "https://10.0.0.1:6443") 6444 false = .ok balancedProxy ∧
    (run balancedProxy [Call.SetSupervisorDefault (go "10.0.0.2:6443"),
        Call.SetAPIServerPort loopbackEnv 6444 false,
        Call.Update [go "10.0.0.3:6444"]]).SupervisorURL = go "https://127.0.0.1:6444" ∧
    (run balancedProxy [Call.SetSupervisorDefault (go "10.0.0.2:6443"),
        Call.SetAPIServerPort loopbackEnv 6444 false,
        Call.Update [go "10.0.0.3:6444"]]).APIServerURL = go "https://127.0.0.1:6443" ∧
    ¬ ((run balancedProxy [Call.SetSupervisorDefault (go "10.0.0.2:6443"),
          Call.SetAPIServerPort loopbackEnv 6444 false,
          Call.Update [go "10.0.0.3:6444"]]).apiServerEnabled = false ∧
        ¬ ((run balancedProxy [Call.SetSupervisorDefault (go "10.0.0.2:6443"),
            Call.SetAPIServerPort loopbackEnv 6444 false,
            Call.Update [go "10.0.0.3:6444"]]).lbEnabled = true ∧
          (run balancedProxy [Call.SetSupervisorDefault (go "10.0.0.2:6443"),
            Call.SetAPIServerPort loopbackEnv 6444 false,
            Call.Update [go "10.0.0.3:6444"]]).apiServerLB = none)) :=
  ⟨rfl, by decide, by decide,
    (balanced_URLs_are_local loopbackEnv {} (go "/var/lib/rancher/k3s/agent")
      (go "https://10.0.0.1:6443") 6444 false balancedProxy
      [Call.SetSupervisorDefault (go "10.0.0.2:6443"),
        Call.SetAPIServerPort loopbackEnv 6444 false,
        Call.Update [go "10.0.0.3:6444"]] rfl).2⟩

/-- C16: in every state reached from a successful construction, `IsSupervisorLBEnabled()`
equals `lbEnabled`, and `IsAPIServerLBEnabled()` is true if and only if `lbEnabled` is true
and `apiServerEnabled` is true (a `SetAPIServerPort` call has succeeded). -/
theorem LB_enabled_flags (env : Env) (ctx : Context) (lbEnabled : Bool)
    (dataDir supervisorURL : GoString) (lbServerPort : Int) (isIPv6 : Bool) (p : proxy)
    (calls : List Call)
    (hnew : NewSupervisorProxy env ctx lbEnabled dataDir supervisorURL lbServerPort isIPv6
      = .ok p) :
    (run p calls).IsSupervisorLBEnabled = lbEnabled ∧
    ((run p calls).IsAPIServerLBEnabled = true ↔
      lbEnabled = true ∧ (run p calls).apiServerEnabled = true) := by
  cases lbEnabled with
  | false =>
    obtain ⟨-, hs, ha, -⟩ :=
      run_Direct env ctx dataDir supervisorURL lbServerPort isIPv6 p calls hnew
    simp [proxy.IsSupervisorLBEnabled, proxy.IsAPIServerLBEnabled, hs, ha]
  | true =>
    obtain ⟨-, slb, hs, -, hapi⟩ :=
      run_Balanced env ctx dataDir supervisorURL lbServerPort isIPv6 p calls hnew
    rcases hapi with ⟨alb, ha, he, -⟩ | ⟨ha, he, -⟩ <;>
      simp [proxy.IsSupervisorLBEnabled, proxy.IsAPIServerLBEnabled, hs, ha, he]

/-- Witness of C16 with load balancing, before and after `SetAPIServerPort`. -/
theorem LB_enabled_flags_witness :
    NewSupervisorProxy loopbackEnv {} true (go "/var/lib/rancher/k3s/agent")
        (go "https://10.0.0.1:6443") 6444 false = .ok balancedProxy ∧
    ((run balancedProxy [Call.SetAPIServerPort loopbackEnv 6444 false]).IsSupervisorLBEnabled
        = true ∧
      ((run balancedProxy [Call.SetAPIServerPort loopbackEnv 6444 false]).IsAPIServerLBEnabled
          = true ↔
        true = true ∧
          (run balancedProxy [Call.SetAPIServerPort loopbackEnv 6444 false]).apiServerEnabled
            = true)) ∧
    (run balancedProxy [Call.SetAPIServerPort loopbackEnv 6444 false]).IsAPIServerLBEnabled
      = true ∧
    (run balancedProxy []).IsAPIServerLBEnabled = false :=
  ⟨rfl,
    LB_enabled_flags loopbackEnv {} true (go "/var/lib/rancher/k3s/agent")
      (go "https://10.0.0.1:6443") 6444 false balancedProxy
      [Call.SetAPIServerPort loopbackEnv 6444 false] rfl,
    by decide, by decide⟩

/-- C18 as stated fails: on the proxy constructed for `https://10.0.0.1:6443` without load
balancing, after `SetSupervisorDefault("10.0.0.2:6443")` and with the API server port still
unset, `SupervisorURL()` is `https://10.0.0.2:6443` while `APIServerURL()` is still
`https://10.0.0.1:6443`. -/
theorem APIServerURL_differs_counterexample :
    NewSupervisorProxy failingEnv {} false (go "/var/lib/rancher/k3s/agent")
        (go "https://10.0.0.1:6443") 6444 false = .ok directProxy ∧
    (run directProxy [Call.SetSupervisorDefault (go "10.0.0.2:6443")]).apiServerEnabled
      = false ∧
    (run directProxy [Call.SetSupervisorDefault (go "10.0.0.2:6443")]).SupervisorURL
      = go "https://10.0.0.2:6443" ∧
    (run directProxy [Call.SetSupervisorDefault (go "10.0.0.2:6443")]).APIServerURL
      = go "https://10.0.0.1:6443" ∧
    (run directProxy [Call.SetSupervisorDefault (go "10.0.0.2:6443")]).APIServerURL
      ≠ (run directProxy [Call.SetSupervisorDefault (go "10.0.0.2:6443")]).SupervisorURL :=
  ⟨rfl, by decide, by decide, by decide, by decide⟩

/-- C18 (amended): in every state reached from a successful construction in which the API
server port is not set, `APIServerURL()` equals `SupervisorURL()` on a proxy with load
balancing; on a proxy without load balancing `APIServerURL()` is the initial supervisor URL,
and equals `SupervisorURL()` as long as no `SetSupervisorDefault` call with an address that
splits has been made. -/
theorem APIServerURL_before_port_set (env : Env) (ctx : Context) (lbEnabled : Bool)
    (dataDir supervisorURL : GoString) (lbServerPort : Int) (isIPv6 : Bool) (p : proxy)
    (calls : List Call)
    (hnew : NewSupervisorProxy env ctx lbEnabled dataDir supervisorURL lbServerPort isIPv6
      = .ok p)
    (hunset : (run p calls).apiServerEnabled = false) :
    (lbEnabled = true → (run p calls).APIServerURL = (run p calls).SupervisorURL) ∧
    (lbEnabled = false →
      (run p calls).APIServerURL = supervisorURL ∧
      (calls.any Call.setsDefault = false →
        (run p calls).APIServerURL = (run p calls).SupervisorURL)) := by
  constructor
  · rintro rfl
    obtain ⟨-, slb, -, hurl, hapi⟩ :=
      run_Balanced env ctx dataDir supervisorURL lbServerPort isIPv6 p calls hnew
    rcases hapi with ⟨alb, -, he, -⟩ | ⟨-, -, hu⟩
    · rw [hunset] at he
      cases he
    · simp only [proxy.APIServerURL, proxy.SupervisorURL, hu, hurl]
  · rintro rfl
    obtain ⟨-, -, -, hurl⟩ :=
      run_Direct env ctx dataDir supervisorURL lbServerPort isIPv6 p calls hnew
    obtain ⟨u, -, hp⟩ :=
      NewSupervisorProxy_direct env ctx dataDir supervisorURL lbServerPort isIPv6 p hnew
    have hinit : p.initialSupervisorURL = supervisorURL := by rw [hp]
    have hsup : p.supervisorURL = supervisorURL := by rw [hp]
    have hapi := hurl hunset
    rw [(run_frame p calls).1, hinit] at hapi
    refine ⟨hapi, fun hno => ?_⟩
    have := run_supervisorURL p calls hno
    simp only [proxy.APIServerURL, proxy.SupervisorURL, hapi, this, hsup]

/-- Witness of C18 (amended) without load balancing, after an `Update` and a
`SetSupervisorDefault` whose address is discarded. -/
theorem APIServerURL_before_port_set_witness :
    (NewSupervisorProxy failingEnv {} false (go "/var/lib/rancher/k3s/agent")
        (go "https://10.0.0.1:6443") 6444 false = .ok directProxy ∧
      (run directProxy [Call.Update [go "10.0.0.2:6443"],
        Call.SetSupervisorDefault (go "not-an-address")]).apiServerEnabled = false) ∧
    (false = false →
      (run directProxy [Call.Update [go "10.0.0.2:6443"],
          Call.SetSupervisorDefault (go "not-an-address")]).APIServerURL
        = go "https://10.0.0.1:6443" ∧
      ([Call.Update [go "10.0.0.2:6443"],
          Call.SetSupervisorDefault (go "not-an-address")].any Call.setsDefault = false →
        (run directProxy [Call.Update [go "10.0.0.2:6443"],
            Call.SetSupervisorDefault (go "not-an-address")]).APIServerURL
          = (run directProxy [Call.Update [go "10.0.0.2:6443"],
              Call.SetSupervisorDefault (go "not-an-address")]).SupervisorURL)) :=
  ⟨⟨rfl, by decide⟩,
    (APIServerURL_before_port_set failingEnv {} false (go "/var/lib/rancher/k3s/agent")
      (go "https://10.0.0.1:6443") 6444 false directProxy
      [Call.Update [go "10.0.0.2:6443"], Call.SetSupervisorDefault (go "not-an-address")]
      rfl (by decide)).2⟩

/-! ## Ports of the stored addresses once the API server port is set -/

theorem Call_apply_supervisorAddresses (q : proxy) (c : Call) (h : c.isUpdate = false) :
    (Call.apply q c).supervisorAddresses = q.supervisorAddresses := by
  cases c with
  | Update addresses => simp [Call.isUpdate] at h
  | SetHealthCheck address healthCheck =>
    simp only [Call.apply, proxy.SetHealthCheck]
    cases q.apiServerLB <;> rfl
  | SetSupervisorDefault address =>
    simp only [Call.apply, proxy.SetSupervisorDefault]
    cases SplitHostPort address with
    | error e => rfl
    | ok hp => cases q.supervisorLB <;> rfl
  | SetAPIServerPort env port isIPv6 =>
    simp only [Call.apply]
    rcases SetAPIServerPort_cases env q port isIPv6 with
      ⟨-, h⟩ | ⟨-, e, -, h⟩ | ⟨-, u, e, -, -, -, -, h⟩ | ⟨-, u, lb, -, -, -, -, h⟩ |
      ⟨-, u, -, -, h⟩ <;> rw [h]

theorem Call_apply_fallback (q : proxy) (c : Call) (h : c.setsDefault = false) :
    (Call.apply q c).fallbackSupervisorAddress = q.fallbackSupervisorAddress := by
  cases c with
  | Update addresses => rfl
  | SetHealthCheck address healthCheck =>
    simp only [Call.apply, proxy.SetHealthCheck]
    cases q.apiServerLB <;> rfl
  | SetSupervisorDefault address =>
    cases hsp : SplitHostPort address with
    | error e => simp [Call.apply, proxy.SetSupervisorDefault, hsp]
    | ok hp => simp [Call.setsDefault, splits, hsp] at h
  | SetAPIServerPort env port isIPv6 =>
    simp only [Call.apply]
    rcases SetAPIServerPort_cases env q port isIPv6 with
      ⟨-, h⟩ | ⟨-, e, -, h⟩ | ⟨-, u, e, -, -, -, -, h⟩ | ⟨-, u, lb, -, -, -, -, h⟩ |
      ⟨-, u, -, -, h⟩ <;> rw [h]

theorem Call_apply_stored_hasPort (port : GoString) (hc : byte ':' ∉ port)
    (hl : byte '[' ∉ port) (hr : byte ']' ∉ port) (q : proxy) (c : Call)
    (hen : q.apiServerEnabled = true) (hsp : q.supervisorPort = port)
    (h : (∀ e ∈ q.supervisorAddresses, hasPort port e) ∨ c.isUpdate = true) :
    ∀ e ∈ (Call.apply q c).supervisorAddresses, hasPort port e := by
  cases hu : c.isUpdate with
  | false =>
    rw [Call_apply_supervisorAddresses q c hu]
    rcases h with h | h
    · exact h
    · rw [hu] at h
      cases h
  | true =>
    cases c with
    | Update addresses =>
      intro e he
      simp only [Call.apply] at he
      rw [Update_enabled_supervisorAddresses q addresses hen, hsp] at he
      exact rewrittenToPort_entry_splits port addresses hc hl hr e he
    | SetHealthCheck address healthCheck => simp [Call.isUpdate] at hu
    | SetSupervisorDefault address => simp [Call.isUpdate] at hu
    | SetAPIServerPort env port2 isIPv6 => simp [Call.isUpdate] at hu

theorem Call_apply_fallback_hasPort (port : GoString) (hc : byte ':' ∉ port)
    (hl : byte '[' ∉ port) (hr : byte ']' ∉ port) (q : proxy) (c : Call)
    (hen : q.apiServerEnabled = true) (hsp : q.supervisorPort = port)
    (h : hasPort port q.fallbackSupervisorAddress ∨ c.setsDefault = true) :
    hasPort port (Call.apply q c).fallbackSupervisorAddress := by
  cases hd : c.setsDefault with
  | false =>
    rw [Call_apply_fallback q c hd]
    rcases h with h | h
    · exact h
    · rw [hd] at h
      cases h
  | true =>
    cases c with
    | Update addresses => simp [Call.setsDefault] at hd
    | SetHealthCheck address healthCheck => simp [Call.setsDefault] at hd
    | SetAPIServerPort env port2 isIPv6 => simp [Call.setsDefault] at hd
    | SetSupervisorDefault address =>
      cases hs : SplitHostPort address with
      | error e => simp [Call.setsDefault, splits, hs] at hd
      | ok hp =>
        obtain ⟨host, port2⟩ := hp
        have hh := SplitHostPort_ok_host address host port2 hs
        have hfb : (Call.apply q (Call.SetSupervisorDefault address)).fallbackSupervisorAddress
            = JoinHostPort host port := by
          cases hlb : q.supervisorLB <;>
            simp [Call.apply, proxy.SetSupervisorDefault, hs, hen, hsp, hlb]
        rw [hfb]
        exact ⟨host, SplitHostPort_JoinHostPort host port hh.1 hh.2 hc hl hr⟩

theorem run_hasPort (port : GoString) (hc : byte ':' ∉ port)
    (hl : byte '[' ∉ port) (hr : byte ']' ∉ port) (q : proxy) (post : List Call)
    (hen : q.apiServerEnabled = true) (hsp : q.supervisorPort = port)
    (hstored : (∀ e ∈ q.supervisorAddresses, hasPort port e) ∨ post.any Call.isUpdate = true)
    (hfb : hasPort port q.fallbackSupervisorAddress ∨ post.any Call.setsDefault = true) :
    (∀ e ∈ (run q post).supervisorAddresses, hasPort port e) ∧
    hasPort port (run q post).fallbackSupervisorAddress := by
  induction post generalizing q with
  | nil =>
    constructor
    · rcases hstored with h | h
      · exact h
      · simp at h
    · rcases hfb with h | h
      · exact h
      · simp at h
  | cons c rest ih =>
    rw [run_cons]
    have hf := Call_apply_frame q c
    refine ih (Call.apply q c) (hf.2.2.2.2.2.2.2 hen) (hf.2.1.trans hsp) ?_ ?_
    · rcases hstored with h | h
      · exact Or.inl (Call_apply_stored_hasPort port hc hl hr q c hen hsp (Or.inl h))
      · simp only [List.any_cons, Bool.or_eq_true] at h
        rcases h with h | h
        · exact Or.inl (Call_apply_stored_hasPort port hc hl hr q c hen hsp (Or.inr h))
        · exact Or.inr h
    · rcases hfb with h | h
      · exact Or.inl (Call_apply_fallback_hasPort port hc hl hr q c hen hsp (Or.inl h))
      · simp only [List.any_cons, Bool.or_eq_true] at h
        rcases h with h | h
        · exact Or.inl (Call_apply_fallback_hasPort port hc hl hr q c hen hsp (Or.inr h))
        · exact Or.inr h

theorem run_supervisorAddresses (q : proxy) (calls : List Call)
    (h : calls.any Call.isUpdate = false) :
    (run q calls).supervisorAddresses = q.supervisorAddresses := by
  induction calls generalizing q with
  | nil => rfl
  | cons c calls ih =>
    simp only [List.any_cons, Bool.or_eq_false_iff] at h
    rw [run_cons, ih _ h.2, Call_apply_supervisorAddresses q c h.1]

theorem run_fallback (q : proxy) (calls : List Call)
    (h : calls.any Call.setsDefault = false) :
    (run q calls).fallbackSupervisorAddress = q.fallbackSupervisorAddress := by
  induction calls generalizing q with
  | nil => rfl
  | cons c calls ih =>
    simp only [List.any_cons, Bool.or_eq_false_iff] at h
    rw [run_cons, ih _ h.2, Call_apply_fallback q c h.1]

theorem setsDefault_of_not_isSetSupervisorDefault (c : Call)
    (h : c.isSetSupervisorDefault = false) : c.setsDefault = false := by
  cases c <;> first | rfl | simp [Call.isSetSupervisorDefault] at h

/-- C19 as stated fails, for the stored list and for the fallback.  On the proxy constructed
for `https://10.0.0.1:6443`, whose supervisor port is `6443`: `Update` with `10.0.0.2:6444`
followed by a successful `SetAPIServerPort(6444, false)` leaves the API server enabled and
`SupervisorAddresses() = ["10.0.0.2:6444"]`; and `SetSupervisorDefault("10.0.0.2:6444")`
followed by the same `SetAPIServerPort` leaves the API server enabled, no list stored and
`SupervisorAddresses() = ["10.0.0.2:6444"]`.  The port `6444` is not the supervisor port. -/
theorem stored_before_port_set_counterexample :
    NewSupervisorProxy failingEnv {} false (go "/var/lib/rancher/k3s/agent")
        (go "https://10.0.0.1:6443") 6444 false = .ok directProxy ∧
    ((run directProxy [Call.Update [go "10.0.0.2:6444"],
        Call.SetAPIServerPort failingEnv 6444 false]).apiServerEnabled = true ∧
      (run directProxy [Call.Update [go "10.0.0.2:6444"],
        Call.SetAPIServerPort failingEnv 6444 false]).SupervisorAddresses
          = [go "10.0.0.2:6444"] ∧
      (run directProxy [Call.Update [go "10.0.0.2:6444"],
        Call.SetAPIServerPort failingEnv 6444 false]).supervisorPort = go "6443") ∧
    ((run directProxy [Call.SetSupervisorDefault (go "10.0.0.2:6444"),
        Call.SetAPIServerPort failingEnv 6444 false]).apiServerEnabled = true ∧
      (run directProxy [Call.SetSupervisorDefault (go "10.0.0.2:6444"),
        Call.SetAPIServerPort failingEnv 6444 false]).supervisorAddresses = [] ∧
      (run directProxy [Call.SetSupervisorDefault (go "10.0.0.2:6444"),
        Call.SetAPIServerPort failingEnv 6444 false]).SupervisorAddresses
          = [go "10.0.0.2:6444"] ∧
      (run directProxy [Call.SetSupervisorDefault (go "10.0.0.2:6444"),
        Call.SetAPIServerPort failingEnv 6444 false]).supervisorPort = go "6443") ∧
    SplitHostPort (go "10.0.0.2:6444") = .ok (go "10.0.0.2", go "6444") ∧
    go "6444" ≠ go "6443" ∧
    ¬ hasPort (go "6443") (go "10.0.0.2:6444") :=
  ⟨rfl, ⟨by decide, by decide, by decide⟩, ⟨by decide, by decide, by decide, by decide⟩,
    by decide, by decide,
    fun ⟨host, h⟩ => by
      have h2 : SplitHostPort (go "10.0.0.2:6444") = .ok (go "10.0.0.2", go "6444") := by
        decide
      rw [h2] at h
      simp only [Except.ok.injEq, Prod.mk.injEq] at h
      exact absurd h.2 (by decide)⟩

/-- C19 (amended): a successful `SetAPIServerPort` leaves the stored address list and the
fallback address as they were, and they stay as they were until the next `Update`,
respectively the next `SetSupervisorDefault` with an address that splits: what was stored or
set before `SetAPIServerPort` is kept as given.  In every state reached after
`SetAPIServerPort` has succeeded, every entry of `SupervisorAddresses()` has the port parsed
from the initial supervisor URL, provided the stored list had it when `SetAPIServerPort`
succeeded or an `Update` has been made since, and the fallback address had it then or a
`SetSupervisorDefault` with an address that splits has been made since. -/
theorem SupervisorAddresses_ports_after_port_set (env : Env) (ctx : Context)
    (lbEnabled : Bool) (dataDir supervisorURL : GoString) (lbServerPort : Int) (isIPv6 : Bool)
    (p : proxy) (u : URL) (pre : List Call) (env2 : Env) (P : Int) (isIPv6_2 : Bool)
    (post : List Call)
    (hnew : NewSupervisorProxy env ctx lbEnabled dataDir supervisorURL lbServerPort isIPv6
      = .ok p)
    (hu : Parse supervisorURL = .ok u)
    (hset : ((run p pre).SetAPIServerPort env2 P isIPv6_2).2 = none) :
    (run ((run p pre).SetAPIServerPort env2 P isIPv6_2).1 post).apiServerEnabled = true ∧
    (run ((run p pre).SetAPIServerPort env2 P isIPv6_2).1 post).supervisorPort = u.Port ∧
    ((run p pre).SetAPIServerPort env2 P isIPv6_2).1.supervisorAddresses
      = (run p pre).supervisorAddresses ∧
    ((run p pre).SetAPIServerPort env2 P isIPv6_2).1.fallbackSupervisorAddress
      = (run p pre).fallbackSupervisorAddress ∧
    (post.any Call.isUpdate = false →
      (run ((run p pre).SetAPIServerPort env2 P isIPv6_2).1 post).supervisorAddresses
        = (run p pre).supervisorAddresses) ∧
    (post.any Call.setsDefault = false →
      (run ((run p pre).SetAPIServerPort env2 P isIPv6_2).1 post).fallbackSupervisorAddress
        = (run p pre).fallbackSupervisorAddress) ∧
    (((∀ e ∈ (run p pre).supervisorAddresses, hasPort u.Port e) ∨
        post.any Call.isUpdate = true) →
      (hasPort u.Port (run p pre).fallbackSupervisorAddress ∨
        post.any Call.setsDefault = true) →
      ∀ e ∈ (run ((run p pre).SetAPIServerPort env2 P isIPv6_2).1 post).SupervisorAddresses,
        hasPort u.Port e) := by
  have hen := SetAPIServerPort_ok_enabled env2 _ P isIPv6_2 hset
  have hport : ((run p pre).SetAPIServerPort env2 P isIPv6_2).1.supervisorPort = u.Port := by
    rw [(SetAPIServerPort_frame env2 (run p pre) P isIPv6_2).2.1]
    exact run_supervisorPort env ctx lbEnabled dataDir supervisorURL lbServerPort isIPv6 p u pre
      hnew hu
  have hkeep1 : ((run p pre).SetAPIServerPort env2 P isIPv6_2).1.supervisorAddresses
      = (run p pre).supervisorAddresses :=
    Call_apply_supervisorAddresses (run p pre) (Call.SetAPIServerPort env2 P isIPv6_2) rfl
  have hkeep2 : ((run p pre).SetAPIServerPort env2 P isIPv6_2).1.fallbackSupervisorAddress
      = (run p pre).fallbackSupervisorAddress :=
    Call_apply_fallback (run p pre) (Call.SetAPIServerPort env2 P isIPv6_2) rfl
  have hsep := URL_Port_no_separator u
  refine ⟨(run_frame _ post).2.2.2.2.2.2.2 hen, ((run_frame _ post).2.1).trans hport,
    hkeep1, hkeep2, ?_, ?_, ?_⟩
  · intro hno
    rw [run_supervisorAddresses _ post hno, hkeep1]
  · intro hno
    rw [run_fallback _ post hno, hkeep2]
  · intro hstored hfallback
    rw [← hkeep1] at hstored
    rw [← hkeep2] at hfallback
    obtain ⟨h1, h2⟩ := run_hasPort u.Port hsep.1 hsep.2.1 hsep.2.2 _ post hen hport hstored
      hfallback
    intro e he
    unfold proxy.SupervisorAddresses at he
    split_ifs at he
    · exact h1 e he
    · simp only [List.mem_singleton] at he
      rw [he]
      exact h2

/-- Witness of C19 (amended): the list `["10.0.0.2:6444"]` stored before `SetAPIServerPort`
is kept by it, and an `Update` after it stores entries with the supervisor port; the
fallback `10.0.0.1:6443` has the supervisor port. -/
theorem SupervisorAddresses_ports_after_port_set_witness :
    (NewSupervisorProxy failingEnv {} false (go "/var/lib/rancher/k3s/agent")
        (go "https://10.0.0.1:6443") 6444 false = .ok directProxy ∧
      Parse (go "https://10.0.0.1:6443")
        = .ok { Scheme := go "https", Host := go "10.0.0.1:6443" } ∧
      ((run directProxy [Call.Update [go "10.0.0.2:6444"]]).SetAPIServerPort failingEnv 6444
        false).2 = none) ∧
    ((run directProxy [Call.Update [go "10.0.0.2:6444"]]).SetAPIServerPort failingEnv 6444
        false).1.supervisorAddresses
      = (run directProxy [Call.Update [go "10.0.0.2:6444"]]).supervisorAddresses ∧
    (∀ e ∈ (run ((run directProxy [Call.Update [go "10.0.0.2:6444"]]).SetAPIServerPort
          failingEnv 6444 false).1
        [Call.Update [go "10.0.0.2:6444", go "10.0.0.3:6444"]]).SupervisorAddresses,
      hasPort (URL.Port { Scheme := go "https", Host := go "10.0.0.1:6443" }) e) ∧
    (run ((run directProxy [Call.Update [go "10.0.0.2:6444"]]).SetAPIServerPort
          failingEnv 6444 false).1
        [Call.Update [go "10.0.0.2:6444", go "10.0.0.3:6444"]]).SupervisorAddresses
      = [go "10.0.0.2:6443", go "10.0.0.3:6443"] :=
  ⟨⟨rfl, by decide, by decide⟩,
    (SupervisorAddresses_ports_after_port_set failingEnv {} false
      (go "/var/lib/rancher/k3s/agent") (go "https://10.0.0.1:6443") 6444 false directProxy
      { Scheme := go "https", Host := go "10.0.0.1:6443" } [Call.Update [go "10.0.0.2:6444"]]
      failingEnv 6444 false [Call.Update [go "10.0.0.2:6444", go "10.0.0.3:6444"]]
      rfl (by decide) (by decide)).2.2.1,
    (SupervisorAddresses_ports_after_port_set failingEnv {} false
      (go "/var/lib/rancher/k3s/agent") (go "https://10.0.0.1:6443") 6444 false directProxy
      { Scheme := go "https", Host := go "10.0.0.1:6443" } [Call.Update [go "10.0.0.2:6444"]]
      failingEnv 6444 false [Call.Update [go "10.0.0.2:6444", go "10.0.0.3:6444"]]
      rfl (by decide) (by decide)).2.2.2.2.2.2 (Or.inr (by decide))
      (Or.inl ⟨go "10.0.0.1", by decide⟩),
    by decide⟩

/-! ## Idempotence of port rewriting -/

theorem rewrittenToPort_fixed (port : GoString) (l : List GoString)
    (h : ∀ e ∈ l, ∃ host, SplitHostPort e = .ok (host, port) ∧ e = JoinHostPort host port) :
    rewrittenToPort port l = l := by
  induction l with
  | nil => rfl
  | cons e l ih =>
    obtain ⟨host, hs, he⟩ := h e (List.mem_cons_self _ _)
    have ih2 := ih fun e2 he2 => h e2 (List.mem_cons_of_mem _ he2)
    simp only [rewrittenToPort] at ih2 ⊢
    have hsplit : splits e = true := by simp [splits, hs]
    have hhost : hostOf e = host := by simp [hostOf, hs]
    rw [List.filter_cons_of_pos hsplit, List.map_cons, ih2, hhost, ← he]

theorem rewrittenToPort_entry_joined (port : GoString) (addresses : List GoString)
    (hc : byte ':' ∉ port) (hl : byte '[' ∉ port) (hr : byte ']' ∉ port) (e : GoString)
    (he : e ∈ rewrittenToPort port addresses) :
    ∃ host, SplitHostPort e = .ok (host, port) ∧ e = JoinHostPort host port := by
  simp only [rewrittenToPort, List.mem_map, List.mem_filter] at he
  obtain ⟨a, ⟨-, ha⟩, rfl⟩ := he
  cases hs : SplitHostPort a with
  | error err => simp [splits, hs] at ha
  | ok hp =>
    obtain ⟨host, port2⟩ := hp
    have hh := SplitHostPort_ok_host a host port2 hs
    refine ⟨host, ?_, ?_⟩
    · simp only [hostOf, hs]
      exact SplitHostPort_JoinHostPort host port hh.1 hh.2 hc hl hr
    · simp only [hostOf, hs]

theorem rewrittenToPort_idempotent (port : GoString) (addresses : List GoString)
    (hd : port.all isDigit = true) :
    rewrittenToPort port (rewrittenToPort port addresses) = rewrittenToPort port addresses := by
  have hsep := digits_no_separator port hd
  exact rewrittenToPort_fixed port _ fun e he =>
    rewrittenToPort_entry_joined port addresses hsep.1 hsep.2.1 hsep.2.2 e he

/-- C21: port rewriting is idempotent: for every address list `xs` and every supervisor port
that consists of digits only (or is empty), `setSupervisorPort (setSupervisorPort xs)` is
`setSupervisorPort xs`; so, once the API server is enabled, `Update` with the list a previous
`Update` stored stores the same list again, with every entry kept.  `SplitHostPort` undoes
`JoinHostPort` with that port on every host that `SplitHostPort` can return. -/
theorem setSupervisorPort_idempotent (p : proxy) (xs : List GoString)
    (hd : p.supervisorPort.all isDigit = true) :
    p.setSupervisorPort (p.setSupervisorPort xs) = p.setSupervisorPort xs ∧
    (p.apiServerEnabled = true →
      ((p.Update xs).Update (p.Update xs).supervisorAddresses).supervisorAddresses
          = (p.Update xs).supervisorAddresses ∧
        ((p.Update xs).Update (p.Update xs).supervisorAddresses).supervisorAddresses.length
          = (p.Update xs).supervisorAddresses.length) ∧
    (∀ address host port, SplitHostPort address = .ok (host, port) →
      SplitHostPort (JoinHostPort host p.supervisorPort) = .ok (host, p.supervisorPort)) := by
  have hidem := rewrittenToPort_idempotent p.supervisorPort xs hd
  have hsep := digits_no_separator p.supervisorPort hd
  refine ⟨?_, ?_, ?_⟩
  · rw [setSupervisorPort_eq, setSupervisorPort_eq]
    exact hidem
  · intro hen
    have hen2 : (p.Update xs).apiServerEnabled = true := hen
    have hport : (p.Update xs).supervisorPort = p.supervisorPort := rfl
    have hsame : ((p.Update xs).Update (p.Update xs).supervisorAddresses).supervisorAddresses
        = (p.Update xs).supervisorAddresses := by
      rw [Update_enabled_supervisorAddresses (p.Update xs) _ hen2, hport,
        Update_enabled_supervisorAddresses p xs hen]
      exact hidem
    exact ⟨hsame, by rw [hsame]⟩
  · intro address host port hs
    have hh := SplitHostPort_ok_host address host port hs
    exact SplitHostPort_JoinHostPort host p.supervisorPort hh.1 hh.2 hsep.1 hsep.2.1 hsep.2.2

/-- Witness of C21 with supervisor port `6443`: a list with an IPv4 entry, a malformed entry
and a bracketed IPv6 entry is rewritten to two entries, and rewriting those again returns
them. -/
theorem setSupervisorPort_idempotent_witness :
    directProxy.supervisorPort.all isDigit = true ∧
    directProxy.setSupervisorPort
        (directProxy.setSupervisorPort
          [go "10.0.0.2:6444", go "not-an-address", go "[fd00::3%eth0]:6444"])
      = directProxy.setSupervisorPort
          [go "10.0.0.2:6444", go "not-an-address", go "[fd00::3%eth0]:6444"] ∧
    directProxy.setSupervisorPort
        [go "10.0.0.2:6444", go "not-an-address", go "[fd00::3%eth0]:6444"]
      = [go "10.0.0.2:6443", go "[fd00::3%eth0]:6443"] :=
  ⟨by decide,
    (setSupervisorPort_idempotent directProxy
      [go "10.0.0.2:6444", go "not-an-address", go "[fd00::3%eth0]:6444"] (by decide)).1,
    by decide⟩

/-- C8: for every `supervisorURL` on which construction succeeds, with or without load
balancing, `SupervisorAddresses()` called before any `Update` or `SetSupervisorDefault`, on
the new proxy or after any `SetAPIServerPort` and `SetHealthCheck` calls, returns the
one-element list of the host component (`host:port`) of the initial supervisor URL. -/
theorem SupervisorAddresses_fresh (env : Env) (ctx : Context) (lbEnabled : Bool)
    (dataDir supervisorURL : GoString) (lbServerPort : Int) (isIPv6 : Bool) (p : proxy)
    (calls : List Call)
    (hnew : NewSupervisorProxy env ctx lbEnabled dataDir supervisorURL lbServerPort isIPv6
      = .ok p)
    (hcalls : ∀ c ∈ calls, c.isUpdate = false ∧ c.isSetSupervisorDefault = false) :
    ∃ u, Parse supervisorURL = .ok u ∧ (run p calls).SupervisorAddresses = [u.Host] := by
  obtain ⟨u, hu, -, -, hfb, -, haddr, -⟩ :=
    NewSupervisorProxy_fields env ctx lbEnabled dataDir supervisorURL lbServerPort isIPv6 p hnew
  have h1 : calls.any Call.isUpdate = false := by
    rw [List.any_eq_false]
    intro c hc
    simp [(hcalls c hc).1]
  have h2 : calls.any Call.setsDefault = false := by
    rw [List.any_eq_false]
    intro c hc
    simp [setsDefault_of_not_isSetSupervisorDefault c (hcalls c hc).2]
  refine ⟨u, hu, ?_⟩
  simp [proxy.SupervisorAddresses, run_supervisorAddresses p calls h1, run_fallback p calls h2,
    haddr, hfb]

/-- Witness of C8 with load balancing, after `SetHealthCheck` and `SetAPIServerPort`: the
address of `https://10.0.0.1:6443` is `10.0.0.1:6443`. -/
theorem SupervisorAddresses_fresh_witness :
    (NewSupervisorProxy loopbackEnv {} true (go "/var/lib/rancher/k3s/agent")
        (go "https://10.0.0.1:6443") 6444 false = .ok balancedProxy ∧
      ∀ c ∈ [Call.SetHealthCheck (go "10.0.0.1:6443") (fun _ => true),
          Call.SetAPIServerPort loopbackEnv 6444 false],
        c.isUpdate = false ∧ c.isSetSupervisorDefault = false) ∧
    (∃ u, Parse (go "https://10.0.0.1:6443") = .ok u ∧
      (run balancedProxy [Call.SetHealthCheck (go "10.0.0.1:6443") (fun _ => true),
        Call.SetAPIServerPort loopbackEnv 6444 false]).SupervisorAddresses = [u.Host]) ∧
    (run balancedProxy [Call.SetHealthCheck (go "10.0.0.1:6443") (fun _ => true),
      Call.SetAPIServerPort loopbackEnv 6444 false]).SupervisorAddresses
        = [go "10.0.0.1:6443"] :=
  ⟨⟨rfl, by
      intro c hc
      simp only [List.mem_cons, List.mem_singleton, List.not_mem_nil, or_false] at hc
      rcases hc with rfl | rfl <;> exact ⟨rfl, rfl⟩⟩,
    SupervisorAddresses_fresh loopbackEnv {} true (go "/var/lib/rancher/k3s/agent")
      (go "https://10.0.0.1:6443") 6444 false balancedProxy
      [Call.SetHealthCheck (go "10.0.0.1:6443") (fun _ => true),
        Call.SetAPIServerPort loopbackEnv 6444 false] rfl
      (by
        intro c hc
        simp only [List.mem_cons, List.mem_singleton, List.not_mem_nil, or_false] at hc
        rcases hc with rfl | rfl <;> exact ⟨rfl, rfl⟩),
    by decide⟩

end K3s
